import Mathlib

/-!
# Verification of `downloader.py`

A shallow embedding of the asset-acquisition / fallback-recovery program
(`src/downloader.py`) together with proofs of the behavioural claims about it.

Python strings are modelled as `List Char`; the relevant parts of
`urllib.parse` (`urlparse`, `urlunparse`, `parse_qsl`, `urlencode`,
`unquote`, `quote_plus`), `os.path`, `pathlib.PurePosixPath` and the three
regular expressions used by the program are embedded as executable Lean
functions.  The network, the filesystem and the `gdown` library are
external collaborators: they are modelled as explicit oracle parameters
(HTTP responses, per-attempt `gdown` outcomes), and the side effects of the
program (native-capability invocations, fallback invocations, failure-ledger
appends, file writes) are modelled as explicit event traces.
-/

set_option maxHeartbeats 1000000
set_option linter.unusedVariables false

/-- Python strings are modelled as lists of characters. -/
abbrev Str := List Char

/-- Coerce a Lean string literal into the model type. -/
def str (s : String) : Str := s.data

/-- Python `x in s` (substring containment). -/
def containsSub (hay needle : Str) : Bool := decide (needle <:+: hay)

/-- Python `s.split(c)` for a one-character separator: the list of chunks
between occurrences of `c` (always non-empty, chunks may be empty). -/
def splitOnChar (c : Char) : Str → List Str
  | [] => [[]]
  | x :: xs =>
    if x = c then [] :: splitOnChar c xs
    else
      match splitOnChar c xs with
      | s :: rest => (x :: s) :: rest
      | [] => [[x]]

/-- Python `s.split(c, 1)`: split at the first occurrence of `c`, or `none`
when `c` does not occur. -/
def splitOnceChar (c : Char) : Str → Option (Str × Str)
  | [] => none
  | x :: xs =>
    if x = c then some ([], xs)
    else
      match splitOnceChar c xs with
      | some (a, b) => some (x :: a, b)
      | none => none

/-- ASCII whitespace, the characters matched by `str.strip()` and by the
regex class `\s` on the inputs this program sees. -/
def isPySpace (c : Char) : Bool :=
  c == ' ' || c == '\t' || c == '\n' || c == '\r' || c == '\x0b' || c == '\x0c'

/-- Python `s.strip()`. -/
def pyStrip (s : Str) : Str :=
  ((s.dropWhile isPySpace).reverse.dropWhile isPySpace).reverse

/-- Python `s.lstrip("/")`. -/
def pyLstripSlash (s : Str) : Str := s.dropWhile (fun c => c == '/')

/-- Python `s.rstrip("/")`. -/
def pyRstripSlash (s : Str) : Str :=
  (s.reverse.dropWhile (fun c => c == '/')).reverse

/-- Python `s.lower()` (ASCII case folding, which is all the program's
comparisons depend on). -/
def pyLower (s : Str) : Str := s.map Char.toLower

/-- Python `netloc.replace(":", "_")` (a one-character-to-one-character
replacement is a `map`). -/
def pyReplaceColon (s : Str) : Str := s.map (fun c => if c = ':' then '_' else c)

/-- Python `os.path.basename`: everything after the last `/`. -/
def pyBasename (s : Str) : Str := (splitOnChar '/' s).getLastD []

/-- Match a literal and return what follows it. -/
def afterPre (p s : Str) : Option Str :=
  if p.isPrefixOf s then some (s.drop p.length) else none

/-! ## `urllib.parse.urlparse` / `urlunparse` -/

/-- The six components of `urllib.parse.ParseResult`. -/
structure UrlParts where
  scheme : Str
  netloc : Str
  path : Str
  params : Str
  query : Str
  fragment : Str
deriving DecidableEq, Repr

/-- Characters allowed in a URL scheme (`urllib.parse.scheme_chars`). -/
def isSchemeChar (c : Char) : Bool :=
  c.isAlphanum || c == '+' || c == '-' || c == '.'

/-- A valid scheme candidate: non-empty, ASCII-alphabetic first character,
all characters drawn from `scheme_chars`. -/
def validScheme : Str → Bool
  | [] => false
  | c :: cs => c.isAlpha && (c :: cs).all isSchemeChar

/-- `urllib.parse._splitparams`: split `;params` off the last path segment. -/
def pySplitParams (p : Str) : Str × Str :=
  match splitOnceChar '/' p.reverse with
  | none =>
    match splitOnceChar ';' p with
    | none => (p, [])
    | some (a, b) => (a, b)
  | some (revSeg, revPre) =>
    match splitOnceChar ';' revSeg.reverse with
    | none => (p, [])
    | some (a, b) => (revPre.reverse ++ '/' :: a, b)

/-- The scheme-splitting step of `urlsplit`: strip a leading valid
`scheme:`, lower-casing it. -/
def schemeSplit (url : Str) : Str × Str :=
  match splitOnceChar ':' url with
  | some (pre, r) => if validScheme pre then (pyLower pre, r) else ([], url)
  | none => ([], url)

/-- The netloc-splitting step of `urlsplit` (`_splitnetloc`): after a
leading `//`, the netloc runs to the first `/`, `?` or `#`. -/
def netlocSplit (r : Str) : Str × Str :=
  match r with
  | '/' :: '/' :: rest =>
    (rest.takeWhile (fun c => !(c == '/' || c == '?' || c == '#')),
     rest.dropWhile (fun c => !(c == '/' || c == '?' || c == '#')))
  | _ => ([], r)

/-- The fragment-splitting step of `urlsplit`: split at the first `#`. -/
def fragmentSplit (r : Str) : Str × Str :=
  match splitOnceChar '#' r with
  | some (a, b) => (a, b)
  | none => (r, [])

/-- The query-splitting step of `urlsplit`: split at the first `?`. -/
def querySplit (r : Str) : Str × Str :=
  match splitOnceChar '?' r with
  | some (a, b) => (a, b)
  | none => (r, [])

/-- `urllib.parse.urlparse` (≡ `urlsplit` + `_splitparams`): split a URL
into scheme, netloc, path, params, query and fragment. -/
def pyUrlparse (url : Str) : UrlParts :=
  let sr := schemeSplit url
  let nr := netlocSplit sr.2
  let fr := fragmentSplit nr.2
  let qr := querySplit fr.1
  let pp := pySplitParams qr.1
  ⟨sr.1, nr.1, pp.1, pp.2, qr.2, fr.2⟩

/-- `urllib.parse.urlunparse` (via `urlunsplit`). -/
def pyUrlunparse (p : UrlParts) : Str :=
  let url0 := if p.params = [] then p.path else p.path ++ ';' :: p.params
  let url1 :=
    if p.netloc ≠ [] ∨ (str "//").isPrefixOf url0 then
      let u := if url0 ≠ [] ∧ ¬ (str "/").isPrefixOf url0 then '/' :: url0 else url0
      str "//" ++ p.netloc ++ u
    else url0
  let url2 := if p.scheme ≠ [] then p.scheme ++ ':' :: url1 else url1
  let url3 := if p.query ≠ [] then url2 ++ '?' :: p.query else url2
  if p.fragment ≠ [] then url3 ++ '#' :: p.fragment else url3

/-! ## `urllib.parse` query-string machinery -/

/-- UTF-8 encoding of one character (what Python's `str.encode('utf-8')`
does per code point). -/
def utf8EncodeChar (c : Char) : List Nat :=
  let n := c.toNat
  if n < 0x80 then [n]
  else if n < 0x800 then [0xC0 + n / 0x40, 0x80 + n % 0x40]
  else if n < 0x10000 then
    [0xE0 + n / 0x1000, 0x80 + (n / 0x40) % 0x40, 0x80 + n % 0x40]
  else
    [0xF0 + n / 0x40000, 0x80 + (n / 0x1000) % 0x40,
     0x80 + (n / 0x40) % 0x40, 0x80 + n % 0x40]

/-- Is `b` a UTF-8 continuation byte? -/
def isCont (b : Nat) : Bool := 0x80 ≤ b && b ≤ 0xBF

/-- Valid second byte after a 3-byte UTF-8 lead (excludes overlong
encodings and surrogates). -/
def cont2Ok (b b2 : Nat) : Bool :=
  if b = 0xE0 then 0xA0 ≤ b2 && b2 ≤ 0xBF
  else if b = 0xED then 0x80 ≤ b2 && b2 ≤ 0x9F
  else isCont b2

/-- Valid second byte after a 4-byte UTF-8 lead (excludes overlong
encodings and code points above U+10FFFF). -/
def cont3Ok (b b2 : Nat) : Bool :=
  if b = 0xF0 then 0x90 ≤ b2 && b2 ≤ 0xBF
  else if b = 0xF4 then 0x80 ≤ b2 && b2 ≤ 0x8F
  else isCont b2

/-- UTF-8 decoding with `errors='replace'` (Python `bytes.decode('utf-8',
'replace')`): malformed leads are replaced by U+FFFD and consume the longest
valid partial sequence.  Structured with a fuel argument (one unit per input
byte) so that it reduces by structural recursion; every step consumes at
least one byte, so `length` fuel is always enough. -/
def utf8DecodeAux : Nat → List Nat → Str
  | _, [] => []
  | 0, _ => []
  | fuel + 1, b :: bs =>
    if b < 0x80 then Char.ofNat b :: utf8DecodeAux fuel bs
    else if 0xC2 ≤ b && b ≤ 0xDF then
      match bs with
      | b2 :: bs2 =>
        if isCont b2 then
          Char.ofNat ((b - 0xC0) * 0x40 + (b2 - 0x80)) :: utf8DecodeAux fuel bs2
        else '\uFFFD' :: utf8DecodeAux fuel (b2 :: bs2)
      | [] => ['\uFFFD']
    else if 0xE0 ≤ b && b ≤ 0xEF then
      match bs with
      | b2 :: b3 :: bs3 =>
        if cont2Ok b b2 then
          if isCont b3 then
            Char.ofNat ((b - 0xE0) * 0x1000 + (b2 - 0x80) * 0x40 + (b3 - 0x80)) ::
              utf8DecodeAux fuel bs3
          else '\uFFFD' :: utf8DecodeAux fuel (b3 :: bs3)
        else '\uFFFD' :: utf8DecodeAux fuel (b2 :: b3 :: bs3)
      | [b2] => if cont2Ok b b2 then ['\uFFFD'] else '\uFFFD' :: utf8DecodeAux fuel [b2]
      | [] => ['\uFFFD']
    else if 0xF0 ≤ b && b ≤ 0xF4 then
      match bs with
      | b2 :: b3 :: b4 :: bs4 =>
        if cont3Ok b b2 then
          if isCont b3 then
            if isCont b4 then
              Char.ofNat ((b - 0xF0) * 0x40000 + (b2 - 0x80) * 0x1000 +
                (b3 - 0x80) * 0x40 + (b4 - 0x80)) :: utf8DecodeAux fuel bs4
            else '\uFFFD' :: utf8DecodeAux fuel (b4 :: bs4)
          else '\uFFFD' :: utf8DecodeAux fuel (b3 :: b4 :: bs4)
        else '\uFFFD' :: utf8DecodeAux fuel (b2 :: b3 :: b4 :: bs4)
      | [b2, b3] =>
        if cont3Ok b b2 then
          if isCont b3 then ['\uFFFD'] else '\uFFFD' :: utf8DecodeAux fuel [b3]
        else '\uFFFD' :: utf8DecodeAux fuel [b2, b3]
      | [b2] => if cont3Ok b b2 then ['\uFFFD'] else '\uFFFD' :: utf8DecodeAux fuel [b2]
      | [] => ['\uFFFD']
    else '\uFFFD' :: utf8DecodeAux fuel bs

/-- UTF-8 decoding with `errors='replace'`. -/
def utf8Decode (bs : List Nat) : Str := utf8DecodeAux bs.length bs

/-- Value of a hexadecimal digit character. -/
def hexVal (c : Char) : Option Nat :=
  if '0' ≤ c ∧ c ≤ '9' then some (c.toNat - 48)
  else if 'a' ≤ c ∧ c ≤ 'f' then some (c.toNat - 87)
  else if 'A' ≤ c ∧ c ≤ 'F' then some (c.toNat - 55)
  else none

/-- First pass of `urllib.parse.unquote`: turn each `%XX` escape into a byte,
leave everything else as characters. -/
def unqTokens : Str → List (Sum Char Nat)
  | [] => []
  | '%' :: a :: b :: rest =>
    match hexVal a, hexVal b with
    | some x, some y => Sum.inr (x * 16 + y) :: unqTokens rest
    | _, _ => Sum.inl '%' :: unqTokens (a :: b :: rest)
  | c :: rest => Sum.inl c :: unqTokens rest

/-- Second pass of `urllib.parse.unquote`: decode each maximal run of
escape bytes as UTF-8 (with replacement), keep literal characters. -/
def unqAssemble : List (Sum Char Nat) → List Nat → Str
  | [], acc => utf8Decode acc.reverse
  | Sum.inl c :: ts, acc => utf8Decode acc.reverse ++ c :: unqAssemble ts []
  | Sum.inr b :: ts, acc => unqAssemble ts (b :: acc)

/-- `urllib.parse.unquote(s)` with the default UTF-8/`replace` handling. -/
def pyUnquote (s : Str) : Str := unqAssemble (unqTokens s) []

/-- Characters `urllib.parse.quote` never escapes (`_ALWAYS_SAFE`). -/
def alwaysSafe (c : Char) : Bool :=
  c.isAlphanum || c == '_' || c == '.' || c == '-' || c == '~'

/-- Upper-case hexadecimal digit. -/
def hexDigitUpper (n : Nat) : Char := (str "0123456789ABCDEF").getD n '0'

/-- `urllib.parse.quote_plus` on one character with `safe=''`: safe
characters pass through, space becomes `+`, everything else is
percent-encoded per UTF-8 byte. -/
def pyQuoteChar (c : Char) : Str :=
  if alwaysSafe c then [c]
  else if c = ' ' then ['+']
  else ((utf8EncodeChar c).map
    (fun b => ['%', hexDigitUpper (b / 16), hexDigitUpper (b % 16)])).flatten

/-- `urllib.parse.quote_plus(s)` with `safe=''`. -/
def pyQuotePlus (s : Str) : Str := (s.map pyQuoteChar).flatten

/-- Python `s.replace('+', ' ')` as done inside `parse_qsl`. -/
def plusToSpace (s : Str) : Str := s.map (fun c => if c = '+' then ' ' else c)

/-- `urllib.parse.parse_qsl(qs)` with the default `keep_blank_values=False`:
split on `&`, drop empty chunks, drop chunks without `=` or with an empty
value, `unquote_plus` both name and value. -/
def pyParseQsl (qs : Str) : List (Str × Str) :=
  (splitOnChar '&' qs).filterMap fun nv =>
    if nv = [] then none
    else
      match splitOnceChar '=' nv with
      | none => none
      | some (n, v) =>
        if v = [] then none
        else some (pyUnquote (plusToSpace n), pyUnquote (plusToSpace v))

/-! Python `dict` with string keys, modelled as an insertion-ordered
association list with unique keys (exactly the observable behaviour of
`dict(...)`, `d[k] = v`, `d.setdefault`, `d.get`). -/

/-- `d[k] = v`: update in place if the key exists, else append. -/
def dictSet (d : List (Str × Str)) (k v : Str) : List (Str × Str) :=
  if d.any (fun p => p.1 == k) then
    d.map (fun p => if p.1 == k then (k, v) else p)
  else d ++ [(k, v)]

/-- `dict(pairs)`: left-to-right insertion, later values win. -/
def dictOfPairs (ps : List (Str × Str)) : List (Str × Str) :=
  ps.foldl (fun d p => dictSet d p.1 p.2) []

/-- `d.setdefault(k, v)`. -/
def dictSetdefault (d : List (Str × Str)) (k v : Str) : List (Str × Str) :=
  if d.any (fun p => p.1 == k) then d else d ++ [(k, v)]

/-- `d.get(k)`. -/
def dictGet (d : List (Str × Str)) (k : Str) : Option Str :=
  (d.find? (fun p => p.1 == k)).map (·.2)

/-- Python `"&".join(l)`. -/
def joinAmp : List Str → Str
  | [] => []
  | [p] => p
  | p :: q :: rest => p ++ '&' :: joinAmp (q :: rest)

/-- `urllib.parse.urlencode(d)` for a string-valued dict. -/
def pyUrlencode (d : List (Str × Str)) : Str :=
  joinAmp (d.map fun p => pyQuotePlus p.1 ++ '=' :: pyQuotePlus p.2)

/-! ## The three regular expressions used by the program -/

/-- The `"?([^";]+)"?` tail of the filename regex: an optional opening
quote, then a non-empty greedy run of characters other than `"` and `;`
(the capture group).  When the run after a consumed quote is empty the
backtracked alternative (no quote) fails on the quote character itself, so
the whole attempt fails. -/
def matchValue : Str → Option Str
  | '"' :: r3 =>
    let t := r3.takeWhile (fun c => !(c == '"' || c == ';'))
    if t = [] then none else some t
  | r3 =>
    let t := r3.takeWhile (fun c => !(c == '"' || c == ';'))
    if t = [] then none else some t

/-- The `\*?=` part of the filename regex: an optional `*`, then `=`. -/
def matchAfterName : Str → Option Str
  | '*' :: '=' :: r2 => matchValue r2
  | '=' :: r2 => matchValue r2
  | _ => none

/-- One attempt of `re.search(r'filename\*?="?([^";]+)"?', cd)` anchored at
the start of `s`. -/
def matchFilenameAt (s : Str) : Option Str :=
  match afterPre (str "filename") s with
  | none => none
  | some r0 => matchAfterName r0

/-- `re.search(r'filename\*?="?([^";]+)"?', cd)`: leftmost match, returning
the capture group. -/
def searchFilenameToken : Str → Option Str
  | [] => none
  | c :: cs =>
    match matchFilenameAt (c :: cs) with
    | some t => some t
    | none => searchFilenameToken cs

/-- One attempt of `re.search(r"https?://drive\.google\.com/uc\?[^ \n]+", m)`
anchored at the start of `s`, returning the whole match. -/
def matchDriveUcAt (s : Str) : Option Str :=
  match afterPre (str "https://drive.google.com/uc?") s with
  | some rest =>
    let t := rest.takeWhile (fun c => !(c == ' ' || c == '\n'))
    if t = [] then none else some (str "https://drive.google.com/uc?" ++ t)
  | none =>
    match afterPre (str "http://drive.google.com/uc?") s with
    | some rest =>
      let t := rest.takeWhile (fun c => !(c == ' ' || c == '\n'))
      if t = [] then none else some (str "http://drive.google.com/uc?" ++ t)
    | none => none

/-- `re.search(r"https?://drive\.google\.com/uc\?[^ \n]+", m)`:
leftmost match. -/
def searchDriveUc : Str → Option Str
  | [] => none
  | c :: cs =>
    match matchDriveUcAt (c :: cs) with
    | some t => some t
    | none => searchDriveUc cs

/-- `\s*([^\n]+)` with `\s*` having consumed exactly `j` characters:
succeeds when a non-newline character follows, capturing greedily up to the
next newline. -/
def capTry (r : Str) (j : Nat) : Option Str :=
  match r.drop j with
  | [] => none
  | c :: rest =>
    if c = '\n' then none
    else some ((c :: rest).takeWhile (fun x => !(x == '\n')))

/-- Backtracking for the greedy `\s*`: try the longest whitespace run first,
then shorter ones. -/
def capBack (r : Str) : Nat → Option Str
  | 0 => capTry r 0
  | j + 1 =>
    match capTry r (j + 1) with
    | some g => some g
    | none => capBack r j

/-- One attempt of `re.search(r"To:\s*([^\n]+)", m)` anchored at the start
of `s`, returning the capture group. -/
def matchToAt (s : Str) : Option Str :=
  match afterPre (str "To:") s with
  | none => none
  | some r => capBack r (r.takeWhile isPySpace).length

/-- `re.search(r"To:\s*([^\n]+)", m)`: leftmost match, returning the capture
group. -/
def searchToPath : Str → Option Str
  | [] => none
  | c :: cs =>
    match matchToAt (c :: cs) with
    | some g => some g
    | none => searchToPath cs

/-! ## `pathlib.PurePosixPath` -/

/-- The normalised segments `pathlib` keeps for a path string: empty
segments and `.` segments are dropped. -/
def pyPathSegs (s : Str) : List Str :=
  (splitOnChar '/' s).filter (fun seg => !(seg == []) && !(seg == ['.']))

/-- A `pathlib.PurePosixPath`: an absolute-path flag plus the retained
segments. -/
structure PyPath where
  absolute : Bool
  parts : List Str
deriving DecidableEq, Repr

/-- `PurePosixPath(s)`. -/
def pyPathOfStr (s : Str) : PyPath :=
  ⟨s.head? = some '/', pyPathSegs s⟩

/-- `p / s`: `pathlib` drops the left operand when the right one is
absolute. -/
def pyPathJoin (p : PyPath) (s : Str) : PyPath :=
  let q := pyPathOfStr s
  if q.absolute then q else ⟨p.absolute, p.parts ++ q.parts⟩

/-- `str(p)`. -/
def pyPathStr (p : PyPath) : Str :=
  if p.absolute then '/' :: List.intercalate ['/'] p.parts
  else if p.parts = [] then ['.']
  else List.intercalate ['/'] p.parts

/-- Resolve `..` segments against their parent (the filesystem's view of
where a relative path with `..` segments actually lands); leading `..`
segments escape and are kept. -/
def resolveSegsAux : List Str → List Str → List Str
  | acc, [] => acc.reverse
  | acc, s :: rest =>
    if s == str ".." then
      match acc with
      | [] => resolveSegsAux [s] rest
      | a :: as =>
        if a == str ".." then resolveSegsAux (s :: a :: as) rest
        else resolveSegsAux as rest
    else resolveSegsAux (s :: acc) rest

/-- Where a segment list actually lands once `..` segments are applied. -/
def resolveSegs (segs : List Str) : List Str := resolveSegsAux [] segs

/-! ## Helpers of `downloader.py` -/

/-- `is_google_drive_url` (downloader.py:42-44). -/
def is_google_drive_url (url : Str) : Bool :=
  containsSub (pyUrlparse url).netloc (str "drive.google.com")

/-- `is_dropbox_url` (downloader.py:47-49). -/
def is_dropbox_url (url : Str) : Bool :=
  containsSub (pyUrlparse url).netloc (str "dropbox.com")

/-- `safe_filename_from_url` (downloader.py:64-68): note that the argument
is re-parsed as a URL even when the caller passes a bare path. -/
def safe_filename_from_url (url : Str) (fallback : Str) : Str :=
  let parsed := pyUrlparse url
  let name := pyBasename (pyRstripSlash parsed.path)
  if name = [] then fallback else name

/-- The path-normalisation step of `make_local_path_for_generic`
(downloader.py:78-81): `path = parsed.path.lstrip("/") or "index"`, then
append `"index"` when the path still ends in `/`. -/
def genericPath2 (path : Str) : Str :=
  let path0 := pyLstripSlash path
  let path1 := if path0 = [] then str "index" else path0
  if path1.getLast? = some '/' then path1 ++ str "index" else path1

/-- The relative part of `make_local_path_for_generic` (downloader.py:71-83):
`Path(netloc.replace(":", "_")) / Path(path')` expressed as its `pathlib`
segments. -/
def make_local_rel_parts (url : Str) : List Str :=
  pyPathSegs (pyReplaceColon (pyUrlparse url).netloc) ++
  pyPathSegs (genericPath2 (pyUrlparse url).path)

/-- `make_local_path_for_generic` (downloader.py:71-83): `base_dir / rel`. -/
def make_local_path_for_generic (url : Str) (base : PyPath) : PyPath :=
  ⟨base.absolute, base.parts ++ make_local_rel_parts url⟩

/-- `guess_extension_from_content_type` (downloader.py:157-169). -/
def guess_extension_from_content_type (content_type : Str) : Str :=
  let ct := pyLower content_type
  if containsSub ct (str "image/jpeg") then str ".jpg"
  else if containsSub ct (str "image/png") then str ".png"
  else if containsSub ct (str "image/gif") then str ".gif"
  else if containsSub ct (str "application/pdf") then str ".pdf"
  else if containsSub ct (str "text/plain") then str ".txt"
  else []

/-- `looks_like_direct_file` (downloader.py:411-418). -/
def looks_like_direct_file (url : Str) : Bool :=
  let path := pyLower (pyUrlparse url).path
  [str ".pdf", str ".doc", str ".docx", str ".xls", str ".xlsx",
   str ".csv", str ".zip", str ".txt"].any (fun e => e.isSuffixOf path)

/-! ## Shared-Link Fetcher (`download_dropbox_file`, downloader.py:104-138) -/

/-- The dict built by `download_dropbox_file`:
`query = dict(parse_qsl(parsed.query)); query["dl"] = "1"`. -/
def dropboxQueryDict (q : Str) : List (Str × Str) :=
  dictSet (dictOfPairs (pyParseQsl q)) (str "dl") (str "1")

/-- The query component of the URL `download_dropbox_file` actually fetches:
`urlencode` of the rewritten dict. -/
def dropboxFetchedQuery (q : Str) : Str := pyUrlencode (dropboxQueryDict q)

/-- The full URL `download_dropbox_file` fetches
(`urlunparse(parsed._replace(query=urlencode(query)))`). -/
def dropbox_direct_url (url : Str) : Str :=
  let p := pyUrlparse url
  pyUrlunparse ⟨p.scheme, p.netloc, p.path, p.params, dropboxFetchedQuery p.query, p.fragment⟩

/-- The output filename `download_dropbox_file` resolves (downloader.py:124-129)
from the response's Content-Disposition header and the original URL. -/
def dropbox_filename (cd url : Str) : Str :=
  match searchFilenameToken cd with
  | some t => t
  | none => safe_filename_from_url (pyUrlparse url).path (str "dropbox_download")

/-- The local path `download_dropbox_file` writes to: `out_dir / filename`
(downloader.py:131). -/
def dropbox_local_path (cd url : Str) (out_dir : PyPath) : PyPath :=
  pyPathJoin out_dir (dropbox_filename cd url)

/-! ## Direct-Transfer Fallback (downloader.py:172-254) -/

/-- The dict built by both fallback entry points:
`query = dict(parse_qsl(parsed.query)); query.setdefault("export", "download")`. -/
def gdriveQueryDict (q : Str) : List (Str × Str) :=
  dictSetdefault (dictOfPairs (pyParseQsl q)) (str "export") (str "download")

/-- The query component of the URL either fallback entry point fetches. -/
def gdriveFetchedQuery (q : Str) : Str := pyUrlencode (gdriveQueryDict q)

/-- The full `direct_url` both fallback entry points fetch. -/
def gdrive_direct_url (from_url : Str) : Str :=
  let p := pyUrlparse from_url
  pyUrlunparse ⟨p.scheme, p.netloc, p.path, p.params, gdriveFetchedQuery p.query, p.fragment⟩

/-- An HTTP response as the fallback code observes it: status code, the
`Content-Type` and `Content-Disposition` headers, and the body bytes. -/
structure HttpResp where
  status : Nat
  contentType : Str
  contentDisposition : Str
  body : List Nat
deriving DecidableEq, Repr

/-- Observable side effects of one fallback call: failure-ledger appends
(`log_failed_google_download`, downloader.py:144-154) and file writes. -/
inductive FEvent
  | logFail (url : Option Str) (path : Option Str) (reason : Str)
  | write (path : Str) (body : List Nat)
deriving DecidableEq, Repr

/-- Is an event a failure-ledger append? -/
def isRecF : FEvent → Bool
  | .logFail .. => true
  | _ => false

/-- Number of failure-ledger appends in a fallback trace. -/
def fRecCount (t : List FEvent) : Nat := t.countP isRecF

/-- `download_file_direct_to_path` (downloader.py:172-200), given the HTTP
response to its GET: `raise_for_status` on a 4xx/5xx response aborts with an
exception; otherwise an HTML content type logs one anomaly record, and the
body is written to `to_path` in either case. -/
def download_file_direct_to_path (from_url : Str) (to_path : PyPath) (r : HttpResp) :
    List FEvent × Except Str Unit :=
  let direct_url := gdrive_direct_url from_url
  if 400 ≤ r.status then ([], .error (str "HTTPError"))
  else
    let content_type := pyLower r.contentType
    let evs :=
      if containsSub content_type (str "text/html") then
        [FEvent.logFail (some direct_url) (some (pyPathStr to_path))
          (str "HTML response (Content-Type=" ++ content_type ++
           str ") when writing to " ++ pyPathStr to_path)]
      else []
    (evs ++ [FEvent.write (pyPathStr to_path) r.body], .ok ())

/-- The filename resolved by `download_file_direct_guess_name`
(downloader.py:227-237): Content-Disposition token, else the `id` query
parameter plus a content-type-derived extension. -/
def guess_name_filename (from_url : Str) (r : HttpResp) : Str :=
  let query := dictOfPairs (pyParseQsl (pyUrlparse from_url).query)
  let file_id := (dictGet query (str "id")).getD (str "unknown_id")
  let content_type := pyLower r.contentType
  match searchFilenameToken r.contentDisposition with
  | some t => t
  | none => file_id ++ guess_extension_from_content_type content_type

/-- The path `download_file_direct_guess_name` writes to:
`out_dir / "gdrive_fallback" / filename` (downloader.py:239-241). -/
def guess_name_to_path (from_url : Str) (out_dir : PyPath) (r : HttpResp) : PyPath :=
  pyPathJoin (pyPathJoin out_dir (str "gdrive_fallback")) (guess_name_filename from_url r)

/-- `download_file_direct_guess_name` (downloader.py:203-254), given the HTTP
response to its GET; returns the written path on success. -/
def download_file_direct_guess_name (from_url : Str) (out_dir : PyPath) (r : HttpResp) :
    List FEvent × Except Str Str :=
  let direct_url := gdrive_direct_url from_url
  if 400 ≤ r.status then ([], .error (str "HTTPError"))
  else
    let content_type := pyLower r.contentType
    let to_path := guess_name_to_path from_url out_dir r
    let evs :=
      if containsSub content_type (str "text/html") then
        [FEvent.logFail (some direct_url) (some (pyPathStr to_path))
          (str "HTML response (Content-Type=" ++ content_type ++
           str ") when guessing name " ++ pyPathStr to_path)]
      else []
    (evs ++ [FEvent.write (pyPathStr to_path) r.body], .ok (pyPathStr to_path))

/-! ## Bulk-Provider Orchestrator (`download_google_drive`, downloader.py:257-392)

The `gdown` library and the two fallback helpers are external collaborators
from the orchestrator's point of view; they are modelled as oracles in a
`GdriveEnv`.  The orchestrator's observable behaviour is an event trace
(native-capability invocations, fallback invocations, failure-ledger appends)
plus an `Except` describing whether an exception propagates to the caller. -/

/-- The exception classes the orchestrator distinguishes (`gdown`'s typed
failures, `json.JSONDecodeError`, and anything else). -/
inductive PyExc
  | fileURLRetrieval (msg : Str)
  | folderContentsMaximumLimit (msg : Str)
  | jsonDecode (msg : Str)
  | otherExc (msg : Str)
deriving DecidableEq, Repr

/-- Outcome of one native-capability invocation. -/
inductive GdownResult
  | ok
  | raise (e : PyExc)
deriving DecidableEq, Repr

/-- Oracle environment for one `download_google_drive` call: what
`gdown.download` does, what `gdown.download_folder` does on each attempt,
and what each fallback helper does (its exception message, if it raises). -/
structure GdriveEnv where
  fileResult : GdownResult
  folderResult : Nat → GdownResult
  toPathResult : Str → Str → Except Str Unit
  guessResult : Str → Except Str Str

/-- Observable events of one `download_google_drive` call. -/
inductive GEvent
  | nativeFile (url : Str)
  | nativeFolder (url : Str) (attempt : Nat)
  | fbToPath (url path : Str)
  | fbGuess (url : Str)
  | logFail (url : Option Str) (path : Option Str) (reason : Str)
deriving DecidableEq, Repr

/-- Is an event a failure-ledger append? -/
def isRecG : GEvent → Bool
  | .logFail .. => true
  | _ => false

/-- Number of failure-ledger appends in an orchestrator trace. -/
def ledgerCount (t : List GEvent) : Nat := t.countP isRecG

/-- Is an event a native folder-transfer invocation? -/
def isNativeFolder : GEvent → Bool
  | .nativeFolder .. => true
  | _ => false

/-- Number of native folder-transfer invocations in a trace. -/
def nativeFolderCount (t : List GEvent) : Nat := t.countP isNativeFolder

/-- `max_retries` (downloader.py:317). -/
def max_retries : Nat := 3

/-- The folder branch of `download_google_drive` (downloader.py:319-392):
the bounded retry loop over `gdown.download_folder`.  `attempt` is the
1-based loop counter, `fuel` the number of loop iterations left. -/
def googleFolderLoop (env : GdriveEnv) (url out_dir : Str) : Nat → Nat → List GEvent
  | _, 0 => []
  | attempt, fuel + 1 =>
    GEvent.nativeFolder url attempt ::
    match env.folderResult attempt with
    | .ok => []
    | .raise (.folderContentsMaximumLimit m) =>
      [GEvent.logFail (some url) (some out_dir) (str "FolderContentsMaximumLimitError: " ++ m)]
    | .raise (.fileURLRetrieval m) =>
      match searchDriveUc m with
      | none =>
        [GEvent.logFail none none (str "Could not parse uc?id=... URL from FileURLRetrievalError")]
      | some u =>
        let from_url := pyStrip u
        match searchToPath m with
        | some g =>
          let to_path := pyStrip g
          GEvent.fbToPath from_url to_path ::
          (match env.toPathResult from_url to_path with
           | .ok _ => []
           | .error e =>
             [GEvent.logFail (some from_url) none (str "Fallback direct download exception: " ++ e)])
        | none =>
          GEvent.fbGuess from_url ::
          (match env.guessResult from_url with
           | .ok _ => []
           | .error e =>
             [GEvent.logFail (some from_url) none (str "Fallback direct download exception: " ++ e)])
    | .raise (.jsonDecode m) =>
      if attempt = max_retries then
        [GEvent.logFail (some url) (some out_dir) (str "JSONDecodeError in gdown.download_folder: " ++ m)]
      else
        googleFolderLoop env url out_dir (attempt + 1) fuel
    | .raise (.otherExc m) =>
      [GEvent.logFail (some url) (some out_dir) (str "Unexpected error in gdown.download_folder: " ++ m)]

/-- The single-file branch of `download_google_drive` (downloader.py:281-310):
only `FileURLRetrievalError` is caught; every other exception propagates. -/
def downloadGoogleSingle (env : GdriveEnv) (url : Str) (out_dir : Str) :
    List GEvent × Except PyExc Unit :=
  match env.fileResult with
  | .ok => ([GEvent.nativeFile url], .ok ())
  | .raise (.fileURLRetrieval m) =>
    match searchDriveUc m with
    | some u =>
      let from_url := pyStrip u
      match env.guessResult from_url with
      | .ok _ => ([GEvent.nativeFile url, GEvent.fbGuess from_url], .ok ())
      | .error e =>
        ([GEvent.nativeFile url, GEvent.fbGuess from_url,
          GEvent.logFail (some from_url) none (str "Fallback single-file exception: " ++ e)], .ok ())
    | none =>
      ([GEvent.nativeFile url,
        GEvent.logFail none none
          (str "Could not parse uc?id=... URL from single-file FileURLRetrievalError")], .ok ())
  | .raise e => ([GEvent.nativeFile url], .error e)

/-- Does the URL's path select the folder branch (downloader.py:281)? -/
def isGoogleFolderUrl (url : Str) : Bool :=
  let path := (pyUrlparse url).path
  containsSub path (str "/folders/") || containsSub path (str "/drive/folders/")

/-- `download_google_drive` (downloader.py:257-392). -/
def download_google_drive (env : GdriveEnv) (url : Str) (out_dir : Str) :
    List GEvent × Except PyExc Unit :=
  if !containsSub (pyUrlparse url).path (str "/folders/") &&
     !containsSub (pyUrlparse url).path (str "/drive/folders/") then
    downloadGoogleSingle env url out_dir
  else
    (googleFolderLoop env url out_dir 1 max_retries, .ok ())

/-! ## Terminal-failure classification (spec §4.5 / §7)

The spec's taxonomy of terminal orchestrator failures, phrased over the
oracle environment: an unparsable recovery URL, a failed fallback attempt,
the structural folder limit, exhausted transient retries, or an unclassified
folder error.  Success, recovered fallbacks and exceptions that propagate to
the Dispatch Loop are not terminal failures of the orchestrator. -/

/-- Terminal failures of the single-file branch. -/
def singleTerminal (env : GdriveEnv) : Bool :=
  match env.fileResult with
  | .raise (.fileURLRetrieval m) =>
    match searchDriveUc m with
    | some u =>
      match env.guessResult (pyStrip u) with
      | .ok _ => false
      | .error _ => true
    | none => true
  | _ => false

/-- Terminal failures of the folder branch, per remaining attempt budget. -/
def folderTerminal (env : GdriveEnv) : Nat → Nat → Bool
  | _, 0 => false
  | attempt, fuel + 1 =>
    match env.folderResult attempt with
    | .ok => false
    | .raise (.folderContentsMaximumLimit _) => true
    | .raise (.otherExc _) => true
    | .raise (.fileURLRetrieval m) =>
      match searchDriveUc m with
      | none => true
      | some u =>
        match searchToPath m with
        | some g =>
          match env.toPathResult (pyStrip u) (pyStrip g) with
          | .ok _ => false
          | .error _ => true
        | none =>
          match env.guessResult (pyStrip u) with
          | .ok _ => false
          | .error _ => true
    | .raise (.jsonDecode _) =>
      if attempt = max_retries then true else folderTerminal env (attempt + 1) fuel

/-- Terminal failures of one `download_google_drive` call. -/
def gdriveTerminal (env : GdriveEnv) (url : Str) : Bool :=
  if !containsSub (pyUrlparse url).path (str "/folders/") &&
     !containsSub (pyUrlparse url).path (str "/drive/folders/") then
    singleTerminal env
  else
    folderTerminal env 1 max_retries

/-! ## Dispatch Loop (`process_url`, downloader.py:423-459) -/

/-- Oracle environment for a `process_url` call on a scraped page: the links
the Page-Link collaborator yields, and for each handler whether it raises
(with which message). -/
structure PageEnv where
  links : List Str
  gdriveExc : Str → Option Str
  dropboxExc : Str → Option Str
  genericExc : Str → Option Str

/-- Observable events of the dispatch loop: the download attempt dispatched
for a link, and a caught-and-printed per-link exception. -/
inductive PEvent
  | dispatchGdrive (url : Str)
  | dispatchDropbox (url : Str)
  | dispatchGeneric (url : Str)
  | caught (url : Str) (msg : Str)
deriving DecidableEq, Repr

/-- The URL an event concerns. -/
def eventUrl : PEvent → Str
  | .dispatchGdrive u => u
  | .dispatchDropbox u => u
  | .dispatchGeneric u => u
  | .caught u _ => u

/-- Handling of one scraped link (downloader.py:442-459): classify, dispatch,
catch-and-print any exception, silently skip unrecognised links. -/
def handleLink (env : PageEnv) (l : Str) : List PEvent :=
  if is_google_drive_url l then
    PEvent.dispatchGdrive l ::
    (match env.gdriveExc l with
     | some e => [PEvent.caught l e]
     | none => [])
  else if is_dropbox_url l then
    PEvent.dispatchDropbox l ::
    (match env.dropboxExc l with
     | some e => [PEvent.caught l e]
     | none => [])
  else if looks_like_direct_file l then
    PEvent.dispatchGeneric l ::
    (match env.genericExc l with
     | some e => [PEvent.caught l e]
     | none => [])
  else []

/-- The scrape loop of `process_url` (downloader.py:436-459) with its `seen`
set. -/
def scrapeLoop (env : PageEnv) : List Str → List Str → List PEvent
  | [], _ => []
  | l :: rest, seen =>
    if l ∈ seen then scrapeLoop env rest seen
    else handleLink env l ++ scrapeLoop env rest (l :: seen)

/-- `process_url` (downloader.py:423-459). -/
def process_url (env : PageEnv) (url : Str) : List PEvent :=
  if is_google_drive_url url then [PEvent.dispatchGdrive url]
  else if is_dropbox_url url then [PEvent.dispatchDropbox url]
  else scrapeLoop env env.links []

/-- The distinct links, in order of first appearance, excluding `seen`. -/
def dedupSeen : List Str → List Str → List Str
  | [], _ => []
  | l :: rest, seen =>
    if l ∈ seen then dedupSeen rest seen
    else l :: dedupSeen rest (l :: seen)

/-- Links `process_url` recognises as downloadable. -/
def recognizedLink (l : Str) : Bool :=
  is_google_drive_url l || is_dropbox_url l || looks_like_direct_file l

/-- The URLs for which a download was dispatched, in dispatch order. -/
def dispatchedUrls (t : List PEvent) : List Str :=
  t.filterMap fun e =>
    match e with
    | .dispatchGdrive u => some u
    | .dispatchDropbox u => some u
    | .dispatchGeneric u => some u
    | .caught _ _ => none

/-! ## Infrastructure lemmas -/

theorem splitOnChar_no_sep {c : Char} {p : Str} (h : c ∉ p) : splitOnChar c p = [p] := by
  induction p with
  | nil => rfl
  | cons x xs ih =>
    simp only [List.mem_cons, not_or] at h
    simp only [splitOnChar, if_neg (Ne.symm h.1), ih h.2]

theorem splitOnChar_sep_append {c : Char} {p r : Str} (h : c ∉ p) :
    splitOnChar c (p ++ c :: r) = p :: splitOnChar c r := by
  induction p with
  | nil => simp [splitOnChar]
  | cons x xs ih =>
    simp only [List.mem_cons, not_or] at h
    simp only [List.cons_append, splitOnChar, if_neg (Ne.symm h.1), List.append_eq]
    rw [ih h.2]

theorem joinAmp_split {parts : List Str} (hne : parts ≠ [])
    (hfree : ∀ p ∈ parts, '&' ∉ p) :
    splitOnChar '&' (joinAmp parts) = parts := by
  induction parts with
  | nil => exact absurd rfl hne
  | cons p rest ih =>
    cases rest with
    | nil => exact splitOnChar_no_sep (hfree p (List.mem_cons_self _ _))
    | cons q rest2 =>
      rw [joinAmp, splitOnChar_sep_append (hfree p (List.mem_cons_self _ _))]
      rw [ih (by simp) (fun x hx => hfree x (List.mem_cons_of_mem _ hx))]

theorem hexDigitUpper_ne_amp (n : Nat) : hexDigitUpper n ≠ '&' := by
  unfold hexDigitUpper
  by_cases h : n < 16
  · interval_cases n <;> decide
  · rw [List.getD_eq_default]
    · decide
    · simpa [str] using Nat.le_of_not_lt h

theorem amp_not_mem_quoteChar (c : Char) : '&' ∉ pyQuoteChar c := by
  unfold pyQuoteChar
  split
  · intro hmem
    rcases List.mem_singleton.mp hmem with rfl
    simp_all [alwaysSafe]
  · split
    · decide
    · intro hmem
      rcases List.mem_flatten.mp hmem with ⟨l, hl, hcl⟩
      rcases List.mem_map.mp hl with ⟨b, _, rfl⟩
      simp only [List.mem_cons, List.not_mem_nil, or_false] at hcl
      rcases hcl with h | h | h
      · exact absurd h (by decide)
      · exact hexDigitUpper_ne_amp _ h.symm
      · exact hexDigitUpper_ne_amp _ h.symm

theorem amp_not_mem_quotePlus (s : Str) : '&' ∉ pyQuotePlus s := by
  unfold pyQuotePlus
  intro hmem
  rcases List.mem_flatten.mp hmem with ⟨l, hl, hcl⟩
  rcases List.mem_map.mp hl with ⟨c, _, rfl⟩
  exact amp_not_mem_quoteChar c hcl

theorem amp_not_mem_encodedPair (k v : Str) :
    '&' ∉ pyQuotePlus k ++ '=' :: pyQuotePlus v := by
  intro hmem
  rcases List.mem_append.mp hmem with h | h
  · exact amp_not_mem_quotePlus k h
  · rcases List.mem_cons.mp h with h | h
    · exact absurd h (by decide)
    · exact amp_not_mem_quotePlus v h

/-- Membership of a dict entry shows up as one `&`-separated component of
`urlencode`'s output. -/
theorem mem_split_urlencode {d : List (Str × Str)} {k v : Str}
    (h : (k, v) ∈ d) :
    (pyQuotePlus k ++ '=' :: pyQuotePlus v) ∈ splitOnChar '&' (pyUrlencode d) := by
  unfold pyUrlencode
  rw [joinAmp_split]
  · exact List.mem_map.mpr ⟨(k, v), h, rfl⟩
  · intro hnil
    rw [List.map_eq_nil_iff] at hnil
    subst hnil
    exact absurd h (List.not_mem_nil _)
  · intro p hp
    rcases List.mem_map.mp hp with ⟨⟨a, b⟩, _, rfl⟩
    exact amp_not_mem_encodedPair a b

/-! Dict lemmas -/

theorem dictSet_mem_self (d : List (Str × Str)) (k v : Str) :
    (k, v) ∈ dictSet d k v := by
  unfold dictSet
  split
  · rename_i h
    rcases List.any_eq_true.mp h with ⟨p, hp, hpk⟩
    refine List.mem_map.mpr ⟨p, hp, ?_⟩
    rw [if_pos hpk]
  · exact List.mem_append_right _ (List.mem_singleton.mpr rfl)

theorem dictSet_mem_of_ne {d : List (Str × Str)} {k v : Str} (j w : Str)
    (hne : k ≠ j) (h : (k, v) ∈ d) : (k, v) ∈ dictSet d j w := by
  unfold dictSet
  split
  · refine List.mem_map.mpr ⟨(k, v), h, ?_⟩
    rw [if_neg]
    simpa using hne
  · exact List.mem_append_left _ h

theorem dictGet_mem {d : List (Str × Str)} {k v : Str}
    (h : dictGet d k = some v) : (k, v) ∈ d := by
  unfold dictGet at h
  rcases Option.map_eq_some'.mp h with ⟨pr, hp, hv⟩
  have hmem := List.mem_of_find?_eq_some hp
  have hpk := List.find?_some hp
  have hk : pr.1 = k := by simpa using hpk
  cases pr with
  | mk a b =>
    simp only at hk hv
    subst hk
    subst hv
    exact hmem

theorem dictGet_none_any {d : List (Str × Str)} {k : Str}
    (h : dictGet d k = none) : d.any (fun p => p.1 == k) = false := by
  unfold dictGet at h
  rw [Option.map_eq_none'] at h
  rw [List.find?_eq_none] at h
  simp only [List.any_eq_false]
  intro p hp
  simpa using h p hp

theorem dictGet_some_any {d : List (Str × Str)} {k v : Str}
    (h : dictGet d k = some v) : d.any (fun p => p.1 == k) = true := by
  unfold dictGet at h
  rcases Option.map_eq_some'.mp h with ⟨pr, hp, _⟩
  have hpk := List.find?_some hp
  exact List.any_eq_true.mpr ⟨pr, List.mem_of_find?_eq_some hp, hpk⟩

theorem dictSetdefault_of_some {d : List (Str × Str)} {k v w : Str}
    (h : dictGet d k = some w) : dictSetdefault d k v = d := by
  unfold dictSetdefault
  rw [if_pos (dictGet_some_any h)]

theorem dictSetdefault_of_none {d : List (Str × Str)} {k v : Str}
    (h : dictGet d k = none) : dictSetdefault d k v = d ++ [(k, v)] := by
  unfold dictSetdefault
  rw [if_neg]
  simp [dictGet_none_any h]

theorem dictSetdefault_mem {d : List (Str × Str)} {k v : Str} (j w : Str)
    (h : (k, v) ∈ d) : (k, v) ∈ dictSetdefault d j w := by
  unfold dictSetdefault
  split
  · exact h
  · exact List.mem_append_left _ h

/-! ## Claim C4 — Dropbox query rewriting -/

/-- Counterexample to claim C4 as stated: the original query parameters are
not preserved byte-for-byte, because `dict(parse_qsl(...))` collapses
duplicate keys to their last occurrence.  For `a=1&a=2&dl=0` the fetched
query is `a=2&dl=1`: the original parameter `a=1` is gone. -/
theorem dropbox_query_duplicates_collapsed :
    (str "a", str "1") ∈ pyParseQsl (str "a=1&a=2&dl=0") ∧
    dropboxFetchedQuery (str "a=1&a=2&dl=0") = str "a=2&dl=1" ∧
    (str "a", str "1") ∉ pyParseQsl (dropboxFetchedQuery (str "a=1&a=2&dl=0")) := by
  decide

/-- Claim C4 (amended): the query of the URL fetched by
`download_dropbox_file` always contains the component `dl=1`, and every key
of the original query other than `dl` keeps its last decoded value,
re-encoded by `quote_plus` (duplicates are collapsed to the last occurrence
and the original byte encoding is not preserved). -/
theorem dropbox_query_rewrite (q : Str) :
    str "dl=1" ∈ splitOnChar '&' (dropboxFetchedQuery q) ∧
    (∀ k v, k ≠ str "dl" → dictGet (dictOfPairs (pyParseQsl q)) k = some v →
      (pyQuotePlus k ++ '=' :: pyQuotePlus v) ∈ splitOnChar '&' (dropboxFetchedQuery q)) := by
  constructor
  · have h := mem_split_urlencode
      (dictSet_mem_self (dictOfPairs (pyParseQsl q)) (str "dl") (str "1"))
    have e : pyQuotePlus (str "dl") ++ '=' :: pyQuotePlus (str "1") = str "dl=1" := by decide
    rw [e] at h
    exact h
  · intro k v hk hget
    exact mem_split_urlencode (dictSet_mem_of_ne _ _ hk (dictGet_mem hget))

/-- Witness for `dropbox_query_rewrite` at the spec's scenario-B query
`dl=0` extended with one extra parameter. -/
theorem dropbox_query_rewrite_witness :
    str "dl=1" ∈ splitOnChar '&' (dropboxFetchedQuery (str "a=2&dl=0")) ∧
    (pyQuotePlus (str "a") ++ '=' :: pyQuotePlus (str "2")) ∈
      splitOnChar '&' (dropboxFetchedQuery (str "a=2&dl=0")) :=
  ⟨(dropbox_query_rewrite (str "a=2&dl=0")).1,
   (dropbox_query_rewrite (str "a=2&dl=0")).2 (str "a") (str "2") (by decide) (by decide)⟩

/-! ## Claim C6 — Direct-Transfer Fallback query rewriting -/

/-- Counterexample to claim C6 as stated: not every pre-existing query
parameter of the input URL is preserved, because `dict(parse_qsl(...))`
collapses duplicate keys.  For `id=1&id=2` the fetched query is
`id=2&export=download`: the original parameter `id=1` is gone. -/
theorem gdrive_query_duplicates_collapsed :
    (str "id", str "1") ∈ pyParseQsl (str "id=1&id=2") ∧
    gdriveFetchedQuery (str "id=1&id=2") = str "id=2&export=download" ∧
    (str "id", str "1") ∉ pyParseQsl (gdriveFetchedQuery (str "id=1&id=2")) := by
  decide

/-- Claim C6 (amended): both Direct-Transfer Fallback entry points rewrite
the URL query so that it contains an `export` parameter — `export=download`
is added only when the key is absent, and an existing `export` value is kept
(the dict is unchanged) — and every key of the parsed original query keeps
its last decoded value, re-encoded by `quote_plus` (duplicate occurrences of
a key are collapsed to the last one; byte encoding is normalised). -/
theorem gdrive_export_rewrite (q : Str) :
    (dictGet (dictOfPairs (pyParseQsl q)) (str "export") = none →
      gdriveQueryDict q = dictOfPairs (pyParseQsl q) ++ [(str "export", str "download")]) ∧
    (∀ v, dictGet (dictOfPairs (pyParseQsl q)) (str "export") = some v →
      gdriveQueryDict q = dictOfPairs (pyParseQsl q)) ∧
    (∀ k v, (k, v) ∈ dictOfPairs (pyParseQsl q) →
      (pyQuotePlus k ++ '=' :: pyQuotePlus v) ∈ splitOnChar '&' (gdriveFetchedQuery q)) ∧
    (∃ v, (str "export", v) ∈ gdriveQueryDict q ∧
      (pyQuotePlus (str "export") ++ '=' :: pyQuotePlus v) ∈
        splitOnChar '&' (gdriveFetchedQuery q)) := by
  refine ⟨fun h => dictSetdefault_of_none h, fun v h => dictSetdefault_of_some h, ?_, ?_⟩
  · intro k v h
    exact mem_split_urlencode (dictSetdefault_mem _ _ h)
  · cases hg : dictGet (dictOfPairs (pyParseQsl q)) (str "export") with
    | none =>
      refine ⟨str "download", ?_, ?_⟩
      · show (str "export", str "download") ∈ dictSetdefault _ _ _
        rw [dictSetdefault_of_none hg]
        exact List.mem_append_right _ (List.mem_singleton.mpr rfl)
      · refine mem_split_urlencode ?_
        show (str "export", str "download") ∈ dictSetdefault _ _ _
        rw [dictSetdefault_of_none hg]
        exact List.mem_append_right _ (List.mem_singleton.mpr rfl)
    | some v =>
      refine ⟨v, ?_, ?_⟩
      · show (str "export", v) ∈ dictSetdefault _ _ _
        rw [dictSetdefault_of_some hg]
        exact dictGet_mem hg
      · refine mem_split_urlencode ?_
        show (str "export", v) ∈ dictSetdefault _ _ _
        rw [dictSetdefault_of_some hg]
        exact dictGet_mem hg

/-- Witness for `gdrive_export_rewrite` at the query `id=ABC` (export
absent) — `export=download` is appended and `id` is preserved. -/
theorem gdrive_export_rewrite_witness :
    gdriveQueryDict (str "id=ABC") =
      dictOfPairs (pyParseQsl (str "id=ABC")) ++ [(str "export", str "download")] ∧
    (pyQuotePlus (str "id") ++ '=' :: pyQuotePlus (str "ABC")) ∈
      splitOnChar '&' (gdriveFetchedQuery (str "id=ABC")) :=
  ⟨(gdrive_export_rewrite (str "id=ABC")).1 (by decide),
   (gdrive_export_rewrite (str "id=ABC")).2.2.1 (str "id") (str "ABC") (by decide)⟩

/-! ## Claim C3 — HTML anomaly handling in the Direct-Transfer Fallback -/

theorem containsSub_eq_true {h n : Str} : containsSub h n = true ↔ n <:+: h :=
  decide_eq_true_iff

/-- Counterexample to claim C3 as stated: when the GET returns an error
status (here a 404 HTML error page), `raise_for_status` raises before the
content-type check, so a call whose response Content-Type contains
`text/html` produces zero FailureRecords and no write at all. -/
theorem html_anomaly_suppressed_on_error_status :
    containsSub
      (pyLower (HttpResp.mk 404 (str "text/html; charset=utf-8") [] [72]).contentType)
      (str "text/html") = true ∧
    (download_file_direct_to_path (str "https://drive.google.com/uc?id=A")
      (pyPathOfStr (str "data/x")) (HttpResp.mk 404 (str "text/html; charset=utf-8") [] [72])).1
      = [] ∧
    (download_file_direct_to_path (str "https://drive.google.com/uc?id=A")
      (pyPathOfStr (str "data/x")) (HttpResp.mk 404 (str "text/html; charset=utf-8") [] [72])).2
      = .error (str "HTTPError") := by
  exact ⟨by decide, by decide, rfl⟩

/-- Claim C3 (amended): for every Direct-Transfer Fallback call whose GET
completes with a non-error status and whose response Content-Type contains
`text/html`, exactly one FailureRecord is appended — its reason containing
the observed (lower-cased) content type and the destination path — and the
response body bytes are still written to the destination path; the anomaly
never suppresses the write.  This holds for both entry points. -/
theorem fallback_html_anomaly (from_url : Str) (to_path : PyPath) (out_dir : PyPath)
    (r : HttpResp) (hs : r.status < 400)
    (hh : str "text/html" <:+: pyLower r.contentType) :
    (download_file_direct_to_path from_url to_path r =
      ([FEvent.logFail (some (gdrive_direct_url from_url)) (some (pyPathStr to_path))
          (str "HTML response (Content-Type=" ++ pyLower r.contentType ++
           str ") when writing to " ++ pyPathStr to_path),
        FEvent.write (pyPathStr to_path) r.body], .ok ()) ∧
     fRecCount (download_file_direct_to_path from_url to_path r).1 = 1 ∧
     pyLower r.contentType <:+:
       (str "HTML response (Content-Type=" ++ pyLower r.contentType ++
        str ") when writing to " ++ pyPathStr to_path) ∧
     pyPathStr to_path <:+:
       (str "HTML response (Content-Type=" ++ pyLower r.contentType ++
        str ") when writing to " ++ pyPathStr to_path)) ∧
    (download_file_direct_guess_name from_url out_dir r =
      ([FEvent.logFail (some (gdrive_direct_url from_url))
          (some (pyPathStr (guess_name_to_path from_url out_dir r)))
          (str "HTML response (Content-Type=" ++ pyLower r.contentType ++
           str ") when guessing name " ++ pyPathStr (guess_name_to_path from_url out_dir r)),
        FEvent.write (pyPathStr (guess_name_to_path from_url out_dir r)) r.body],
       .ok (pyPathStr (guess_name_to_path from_url out_dir r))) ∧
     fRecCount (download_file_direct_guess_name from_url out_dir r).1 = 1 ∧
     pyLower r.contentType <:+:
       (str "HTML response (Content-Type=" ++ pyLower r.contentType ++
        str ") when guessing name " ++ pyPathStr (guess_name_to_path from_url out_dir r)) ∧
     pyPathStr (guess_name_to_path from_url out_dir r) <:+:
       (str "HTML response (Content-Type=" ++ pyLower r.contentType ++
        str ") when guessing name " ++ pyPathStr (guess_name_to_path from_url out_dir r))) := by
  have hct : containsSub (pyLower r.contentType) (str "text/html") = true :=
    containsSub_eq_true.mpr hh
  have hst : ¬ 400 ≤ r.status := Nat.not_le.mpr hs
  have e1 : download_file_direct_to_path from_url to_path r =
      ([FEvent.logFail (some (gdrive_direct_url from_url)) (some (pyPathStr to_path))
          (str "HTML response (Content-Type=" ++ pyLower r.contentType ++
           str ") when writing to " ++ pyPathStr to_path),
        FEvent.write (pyPathStr to_path) r.body], .ok ()) := by
    unfold download_file_direct_to_path
    simp only [if_neg hst, hct, if_true, List.singleton_append]
  have e2 : download_file_direct_guess_name from_url out_dir r =
      ([FEvent.logFail (some (gdrive_direct_url from_url))
          (some (pyPathStr (guess_name_to_path from_url out_dir r)))
          (str "HTML response (Content-Type=" ++ pyLower r.contentType ++
           str ") when guessing name " ++ pyPathStr (guess_name_to_path from_url out_dir r)),
        FEvent.write (pyPathStr (guess_name_to_path from_url out_dir r)) r.body],
       .ok (pyPathStr (guess_name_to_path from_url out_dir r))) := by
    unfold download_file_direct_guess_name
    simp only [if_neg hst, hct, if_true, List.singleton_append]
  refine ⟨⟨e1, ?_, ?_, ?_⟩, ⟨e2, ?_, ?_, ?_⟩⟩
  · rw [e1]
    rfl
  · exact ⟨str "HTML response (Content-Type=",
      str ") when writing to " ++ pyPathStr to_path, by simp⟩
  · exact ⟨str "HTML response (Content-Type=" ++ pyLower r.contentType ++
      str ") when writing to ", [], by simp⟩
  · rw [e2]
    rfl
  · exact ⟨str "HTML response (Content-Type=",
      str ") when guessing name " ++ pyPathStr (guess_name_to_path from_url out_dir r), by simp⟩
  · exact ⟨str "HTML response (Content-Type=" ++ pyLower r.contentType ++
      str ") when guessing name ", [], by simp⟩

/-- Witness for `fallback_html_anomaly`: a 200 HTML interstitial response. -/
theorem fallback_html_anomaly_witness :
    (HttpResp.mk 200 (str "text/html; charset=utf-8") [] [72, 105]).status < 400 ∧
    str "text/html" <:+:
      pyLower (HttpResp.mk 200 (str "text/html; charset=utf-8") [] [72, 105]).contentType ∧
    fRecCount (download_file_direct_to_path (str "https://drive.google.com/uc?id=A")
      (pyPathOfStr (str "data/x"))
      (HttpResp.mk 200 (str "text/html; charset=utf-8") [] [72, 105])).1 = 1 ∧
    fRecCount (download_file_direct_guess_name (str "https://drive.google.com/uc?id=A")
      (pyPathOfStr (str "data"))
      (HttpResp.mk 200 (str "text/html; charset=utf-8") [] [72, 105])).1 = 1 :=
  ⟨by decide, by decide,
   (fallback_html_anomaly (str "https://drive.google.com/uc?id=A")
     (pyPathOfStr (str "data/x")) (pyPathOfStr (str "data"))
     (HttpResp.mk 200 (str "text/html; charset=utf-8") [] [72, 105])
     (by decide) (by decide)).1.2.1,
   (fallback_html_anomaly (str "https://drive.google.com/uc?id=A")
     (pyPathOfStr (str "data/x")) (pyPathOfStr (str "data"))
     (HttpResp.mk 200 (str "text/html; charset=utf-8") [] [72, 105])
     (by decide) (by decide)).2.2.1⟩

/-! ## Claim C10 — Content-Disposition filename used verbatim as a path -/

/-- Claim C10: the filename token parsed from Content-Disposition is joined
verbatim under the output directory with no sanitisation of path
separators.  For the header `filename="../../etc/passwd"`, the path written
by `download_dropbox_file` resolves outside the output directory `data`,
and the path written by `download_file_direct_guess_name` resolves outside
its `data/gdrive_fallback` subdirectory. -/
theorem cd_filename_path_traversal :
    dropbox_filename (str "filename=\"../../etc/passwd\"")
      (str "https://www.dropbox.com/s/x/y.pdf?dl=0") = str "../../etc/passwd" ∧
    (dropbox_local_path (str "filename=\"../../etc/passwd\"")
      (str "https://www.dropbox.com/s/x/y.pdf?dl=0") (pyPathOfStr (str "data"))).parts
      = [str "data", str "..", str "..", str "etc", str "passwd"] ∧
    ¬ (resolveSegs [str "data"] <+:
       resolveSegs (dropbox_local_path (str "filename=\"../../etc/passwd\"")
         (str "https://www.dropbox.com/s/x/y.pdf?dl=0") (pyPathOfStr (str "data"))).parts) ∧
    guess_name_filename (str "https://drive.google.com/uc?id=A")
      (HttpResp.mk 200 (str "application/pdf") (str "filename=\"../../etc/passwd\"") [1])
      = str "../../etc/passwd" ∧
    ¬ (resolveSegs [str "data", str "gdrive_fallback"] <+:
       resolveSegs (guess_name_to_path (str "https://drive.google.com/uc?id=A")
         (pyPathOfStr (str "data"))
         (HttpResp.mk 200 (str "application/pdf") (str "filename=\"../../etc/passwd\"") [1])).parts) := by
  decide

/-! ## Orchestrator lemmas -/

@[simp] theorem isRecG_nativeFile (u : Str) : isRecG (GEvent.nativeFile u) = false := rfl

@[simp] theorem isRecG_nativeFolder (u : Str) (a : Nat) :
    isRecG (GEvent.nativeFolder u a) = false := rfl

@[simp] theorem isRecG_fbToPath (u p : Str) : isRecG (GEvent.fbToPath u p) = false := rfl

@[simp] theorem isRecG_fbGuess (u : Str) : isRecG (GEvent.fbGuess u) = false := rfl

@[simp] theorem isRecG_logFail (u p : Option Str) (r : Str) :
    isRecG (GEvent.logFail u p r) = true := rfl

@[simp] theorem isNativeFolder_nativeFile (u : Str) :
    isNativeFolder (GEvent.nativeFile u) = false := rfl

@[simp] theorem isNativeFolder_nativeFolder (u : Str) (a : Nat) :
    isNativeFolder (GEvent.nativeFolder u a) = true := rfl

@[simp] theorem isNativeFolder_fbToPath (u p : Str) :
    isNativeFolder (GEvent.fbToPath u p) = false := rfl

@[simp] theorem isNativeFolder_fbGuess (u : Str) :
    isNativeFolder (GEvent.fbGuess u) = false := rfl

@[simp] theorem isNativeFolder_logFail (u p : Option Str) (r : Str) :
    isNativeFolder (GEvent.logFail u p r) = false := rfl

@[simp] theorem ledgerCount_nil : ledgerCount [] = 0 := rfl

@[simp] theorem ledgerCount_cons (e : GEvent) (t : List GEvent) :
    ledgerCount (e :: t) = ledgerCount t + (if isRecG e then 1 else 0) :=
  List.countP_cons _ _ _

@[simp] theorem nativeFolderCount_nil : nativeFolderCount [] = 0 := rfl

@[simp] theorem nativeFolderCount_cons (e : GEvent) (t : List GEvent) :
    nativeFolderCount (e :: t) = nativeFolderCount t + (if isNativeFolder e then 1 else 0) :=
  List.countP_cons _ _ _

/-- The folder retry loop appends exactly one ledger record on the runs the
spec classifies as terminal failures, and none otherwise. -/
theorem folderLoop_ledger (env : GdriveEnv) (url out_dir : Str) :
    ∀ fuel attempt,
      ledgerCount (googleFolderLoop env url out_dir attempt fuel) =
        if folderTerminal env attempt fuel then 1 else 0 := by
  intro fuel
  induction fuel with
  | zero =>
    intro attempt
    simp [googleFolderLoop, folderTerminal]
  | succ n ih =>
    intro attempt
    cases h : env.folderResult attempt with
    | ok => simp [googleFolderLoop, folderTerminal, h]
    | raise e =>
      cases e with
      | folderContentsMaximumLimit m => simp [googleFolderLoop, folderTerminal, h]
      | otherExc m => simp [googleFolderLoop, folderTerminal, h]
      | fileURLRetrieval m =>
        cases hu : searchDriveUc m with
        | none => simp [googleFolderLoop, folderTerminal, h, hu]
        | some u =>
          cases ht : searchToPath m with
          | some g =>
            cases hp : env.toPathResult (pyStrip u) (pyStrip g) <;>
              simp [googleFolderLoop, folderTerminal, h, hu, ht, hp]
          | none =>
            cases hp : env.guessResult (pyStrip u) <;>
              simp [googleFolderLoop, folderTerminal, h, hu, ht, hp]
      | jsonDecode m =>
        by_cases ha : attempt = max_retries
        · subst ha
          simp [googleFolderLoop, folderTerminal, h]
        · simp [googleFolderLoop, folderTerminal, h, ha, ih]

/-- The single-file branch appends exactly one ledger record on terminal
failures, and none otherwise. -/
theorem single_ledger (env : GdriveEnv) (url out_dir : Str) :
    ledgerCount (downloadGoogleSingle env url out_dir).1 =
      if singleTerminal env then 1 else 0 := by
  cases h : env.fileResult with
  | ok => simp [downloadGoogleSingle, singleTerminal, h]
  | raise e =>
    cases e with
    | fileURLRetrieval m =>
      cases hu : searchDriveUc m with
      | none => simp [downloadGoogleSingle, singleTerminal, h, hu]
      | some u =>
        cases hp : env.guessResult (pyStrip u) <;>
          simp [downloadGoogleSingle, singleTerminal, h, hu, hp]
    | folderContentsMaximumLimit m => simp [downloadGoogleSingle, singleTerminal, h]
    | jsonDecode m => simp [downloadGoogleSingle, singleTerminal, h]
    | otherExc m => simp [downloadGoogleSingle, singleTerminal, h]

/-- Unfolding `download_google_drive` on folder URLs. -/
theorem folderCond_of_isFolder {url : Str} (h : isGoogleFolderUrl url = true) :
    (!containsSub (pyUrlparse url).path (str "/folders/") &&
     !containsSub (pyUrlparse url).path (str "/drive/folders/")) = false := by
  unfold isGoogleFolderUrl at h
  rw [← Bool.not_or, h]
  rfl

theorem folderCond_of_isSingle {url : Str} (h : isGoogleFolderUrl url = false) :
    (!containsSub (pyUrlparse url).path (str "/folders/") &&
     !containsSub (pyUrlparse url).path (str "/drive/folders/")) = true := by
  unfold isGoogleFolderUrl at h
  rw [← Bool.not_or, h]
  rfl

theorem download_google_drive_folder {url : Str} (env : GdriveEnv) (out_dir : Str)
    (h : isGoogleFolderUrl url = true) :
    download_google_drive env url out_dir =
      (googleFolderLoop env url out_dir 1 max_retries, .ok ()) := by
  unfold download_google_drive
  rw [folderCond_of_isFolder h]
  rfl

/-- Unfolding `download_google_drive` on single-file URLs. -/
theorem download_google_drive_single {url : Str} (env : GdriveEnv) (out_dir : Str)
    (h : isGoogleFolderUrl url = false) :
    download_google_drive env url out_dir = downloadGoogleSingle env url out_dir := by
  unfold download_google_drive
  rw [folderCond_of_isSingle h]
  rfl

/-! ## Claim C1 — one ledger record per terminal orchestrator failure -/

/-- Claim C1: for every oracle environment, a `download_google_drive` run
appends exactly one FailureRecord when it ends in a terminal failure of the
spec's taxonomy (unparsable recovery URL, failed fallback attempt, folder
contents limit, exhausted transient retries, unclassified folder error),
and none otherwise — never zero and never two for the same failure event. -/
theorem terminal_failure_logs_once (env : GdriveEnv) (url out_dir : Str) :
    ledgerCount (download_google_drive env url out_dir).1 =
      if gdriveTerminal env url then 1 else 0 := by
  by_cases h : isGoogleFolderUrl url = true
  · rw [download_google_drive_folder env out_dir h]
    unfold gdriveTerminal
    rw [folderCond_of_isFolder h]
    exact folderLoop_ledger env url out_dir max_retries 1
  · rw [Bool.not_eq_true] at h
    rw [download_google_drive_single env out_dir h]
    unfold gdriveTerminal
    rw [folderCond_of_isSingle h]
    exact single_ledger env url out_dir

/-! ## Claim C2 — folder-path limit and transient-retry behaviour -/

/-- Claim C2: in the folder path of `download_google_drive`, a
`FolderContentsMaximumLimitError` on the first attempt produces exactly one
FailureRecord and exactly one native folder invocation (zero further ones);
a `JSONDecodeError` on every attempt produces a trace of exactly
`max_retries = 3` native invocations followed by a single FailureRecord
(logged after the final attempt). -/
theorem folder_limit_and_json_retries :
    (∀ (env : GdriveEnv) (url out_dir m : Str), isGoogleFolderUrl url = true →
      env.folderResult 1 = .raise (.folderContentsMaximumLimit m) →
      ledgerCount (download_google_drive env url out_dir).1 = 1 ∧
      nativeFolderCount (download_google_drive env url out_dir).1 = 1) ∧
    (∀ (env : GdriveEnv) (url out_dir : Str) (m : Nat → Str), isGoogleFolderUrl url = true →
      (∀ a, env.folderResult a = .raise (.jsonDecode (m a))) →
      (download_google_drive env url out_dir).1 =
        [GEvent.nativeFolder url 1, GEvent.nativeFolder url 2, GEvent.nativeFolder url 3,
         GEvent.logFail (some url) (some out_dir)
           (str "JSONDecodeError in gdown.download_folder: " ++ m 3)] ∧
      ledgerCount (download_google_drive env url out_dir).1 = 1 ∧
      nativeFolderCount (download_google_drive env url out_dir).1 = max_retries) := by
  constructor
  · intro env url out_dir m hurl hres
    rw [download_google_drive_folder env out_dir hurl]
    show ledgerCount (googleFolderLoop env url out_dir 1 max_retries) = 1 ∧
      nativeFolderCount (googleFolderLoop env url out_dir 1 max_retries) = 1
    simp [googleFolderLoop, max_retries, hres]
  · intro env url out_dir m hurl hres
    rw [download_google_drive_folder env out_dir hurl]
    have e : googleFolderLoop env url out_dir 1 max_retries =
        [GEvent.nativeFolder url 1, GEvent.nativeFolder url 2, GEvent.nativeFolder url 3,
         GEvent.logFail (some url) (some out_dir)
           (str "JSONDecodeError in gdown.download_folder: " ++ m 3)] := by
      show googleFolderLoop env url out_dir 1 3 = _
      rw [googleFolderLoop, hres 1]
      rw [show googleFolderLoop env url out_dir 2 2 =
        GEvent.nativeFolder url 2 :: googleFolderLoop env url out_dir 3 1 from by
          rw [googleFolderLoop, hres 2]; rfl]
      rw [show googleFolderLoop env url out_dir 3 1 =
        [GEvent.nativeFolder url 3,
         GEvent.logFail (some url) (some out_dir)
           (str "JSONDecodeError in gdown.download_folder: " ++ m 3)] from by
          rw [googleFolderLoop, hres 3]; rfl]
      rfl
    refine ⟨e, ?_, ?_⟩ <;> rw [e] <;> rfl

/-- Oracle environment whose folder transfer hits the structural limit. -/
def envLimit : GdriveEnv :=
  ⟨.ok, fun _ => .raise (.folderContentsMaximumLimit (str "limit")),
   fun _ _ => .ok (), fun u => .ok u⟩

/-- Oracle environment whose folder transfer always yields malformed JSON. -/
def envJson : GdriveEnv :=
  ⟨.ok, fun _ => .raise (.jsonDecode (str "Expecting value")),
   fun _ _ => .ok (), fun u => .ok u⟩

/-- Witness for `folder_limit_and_json_retries` at a concrete folder URL. -/
theorem folder_limit_and_json_retries_witness :
    (ledgerCount (download_google_drive envLimit
        (str "https://drive.google.com/drive/folders/XYZ") (str "data")).1 = 1 ∧
     nativeFolderCount (download_google_drive envLimit
        (str "https://drive.google.com/drive/folders/XYZ") (str "data")).1 = 1) ∧
    ((download_google_drive envJson
        (str "https://drive.google.com/drive/folders/XYZ") (str "data")).1 =
      [GEvent.nativeFolder (str "https://drive.google.com/drive/folders/XYZ") 1,
       GEvent.nativeFolder (str "https://drive.google.com/drive/folders/XYZ") 2,
       GEvent.nativeFolder (str "https://drive.google.com/drive/folders/XYZ") 3,
       GEvent.logFail (some (str "https://drive.google.com/drive/folders/XYZ")) (some (str "data"))
         (str "JSONDecodeError in gdown.download_folder: " ++ str "Expecting value")] ∧
     ledgerCount (download_google_drive envJson
        (str "https://drive.google.com/drive/folders/XYZ") (str "data")).1 = 1 ∧
     nativeFolderCount (download_google_drive envJson
        (str "https://drive.google.com/drive/folders/XYZ") (str "data")).1 = max_retries) :=
  ⟨folder_limit_and_json_retries.1 envLimit
     (str "https://drive.google.com/drive/folders/XYZ") (str "data") (str "limit")
     (by decide) rfl,
   folder_limit_and_json_retries.2 envJson
     (str "https://drive.google.com/drive/folders/XYZ") (str "data")
     (fun _ => str "Expecting value") (by decide) (fun _ => rfl)⟩

/-! ## Claim C5 — single-file exception policy -/

/-- Claim C5: in the single-file path, a `FileURLRetrievalError` from the
native capability never propagates: the orchestrator parses a
`drive.google.com/uc?...` URL out of the message; if found it invokes the
guess-name fallback, logging exactly one FailureRecord when the fallback
raises and none when it succeeds; if not found it logs one FailureRecord
noting the parse failure.  Every exception of any other type propagates to
the caller unchanged, with no fallback invocation and no ledger append. -/
theorem single_file_exception_policy :
    (∀ (env : GdriveEnv) (url out_dir m : Str), isGoogleFolderUrl url = false →
      env.fileResult = .raise (.fileURLRetrieval m) →
      (download_google_drive env url out_dir).2 = .ok () ∧
      (match searchDriveUc m with
       | some u =>
         GEvent.fbGuess (pyStrip u) ∈ (download_google_drive env url out_dir).1 ∧
         (∀ e, env.guessResult (pyStrip u) = .error e →
           (download_google_drive env url out_dir).1 =
             [GEvent.nativeFile url, GEvent.fbGuess (pyStrip u),
              GEvent.logFail (some (pyStrip u)) none
                (str "Fallback single-file exception: " ++ e)]) ∧
         (∀ p, env.guessResult (pyStrip u) = .ok p →
           (download_google_drive env url out_dir).1 =
             [GEvent.nativeFile url, GEvent.fbGuess (pyStrip u)])
       | none =>
         (download_google_drive env url out_dir).1 =
           [GEvent.nativeFile url,
            GEvent.logFail none none
              (str "Could not parse uc?id=... URL from single-file FileURLRetrievalError")])) ∧
    (∀ (env : GdriveEnv) (url out_dir : Str) (e : PyExc), isGoogleFolderUrl url = false →
      env.fileResult = .raise e → (∀ m, e ≠ .fileURLRetrieval m) →
      download_google_drive env url out_dir = ([GEvent.nativeFile url], .error e)) := by
  constructor
  · intro env url out_dir m hurl hres
    rw [download_google_drive_single env out_dir hurl]
    cases hu : searchDriveUc m with
    | some u =>
      refine ⟨?_, ?_, ?_, ?_⟩
      · cases hp : env.guessResult (pyStrip u) <;>
          simp [downloadGoogleSingle, hres, hu, hp]
      · cases hp : env.guessResult (pyStrip u) <;>
          simp [downloadGoogleSingle, hres, hu, hp]
      · intro e he
        simp [downloadGoogleSingle, hres, hu, he]
      · intro p hp
        simp [downloadGoogleSingle, hres, hu, hp]
    | none =>
      refine ⟨?_, ?_⟩ <;> simp [downloadGoogleSingle, hres, hu]
  · intro env url out_dir e hurl hres hne
    rw [download_google_drive_single env out_dir hurl]
    cases e with
    | fileURLRetrieval m => exact absurd rfl (hne m)
    | folderContentsMaximumLimit m => simp [downloadGoogleSingle, hres]
    | jsonDecode m => simp [downloadGoogleSingle, hres]
    | otherExc m => simp [downloadGoogleSingle, hres]

/-- Oracle environment for a single-file `FileURLRetrievalError` whose
message embeds a recoverable `uc?id=...` URL and whose fallback raises. -/
def envFurFail : GdriveEnv :=
  ⟨.raise (.fileURLRetrieval
     (str "Failed.\nhttps://drive.google.com/uc?id=AB12 cannot be retrieved")),
   fun _ => .ok, fun _ _ => .ok (), fun _ => .error (str "boom")⟩

/-- Oracle environment whose native single-file transfer raises an
unclassified exception. -/
def envOther : GdriveEnv :=
  ⟨.raise (.otherExc (str "PermissionError")), fun _ => .ok,
   fun _ _ => .ok (), fun u => .ok u⟩

/-- Witness for `single_file_exception_policy`: the recoverable-URL case
with a failing fallback logs exactly the expected trace, and an
unclassified exception propagates unchanged. -/
theorem single_file_exception_policy_witness :
    ((download_google_drive envFurFail (str "https://drive.google.com/uc?id=AB12") (str "data")).2
       = .ok () ∧
     (match searchDriveUc
        (str "Failed.\nhttps://drive.google.com/uc?id=AB12 cannot be retrieved") with
      | some u =>
        GEvent.fbGuess (pyStrip u) ∈
          (download_google_drive envFurFail
            (str "https://drive.google.com/uc?id=AB12") (str "data")).1 ∧
        (∀ e, envFurFail.guessResult (pyStrip u) = .error e →
          (download_google_drive envFurFail
            (str "https://drive.google.com/uc?id=AB12") (str "data")).1 =
            [GEvent.nativeFile (str "https://drive.google.com/uc?id=AB12"),
             GEvent.fbGuess (pyStrip u),
             GEvent.logFail (some (pyStrip u)) none
               (str "Fallback single-file exception: " ++ e)]) ∧
        (∀ p, envFurFail.guessResult (pyStrip u) = .ok p →
          (download_google_drive envFurFail
            (str "https://drive.google.com/uc?id=AB12") (str "data")).1 =
            [GEvent.nativeFile (str "https://drive.google.com/uc?id=AB12"),
             GEvent.fbGuess (pyStrip u)])
      | none =>
        (download_google_drive envFurFail
          (str "https://drive.google.com/uc?id=AB12") (str "data")).1 =
          [GEvent.nativeFile (str "https://drive.google.com/uc?id=AB12"),
           GEvent.logFail none none
             (str "Could not parse uc?id=... URL from single-file FileURLRetrievalError")])) ∧
    download_google_drive envOther (str "https://drive.google.com/uc?id=AB12") (str "data") =
      ([GEvent.nativeFile (str "https://drive.google.com/uc?id=AB12")],
       .error (.otherExc (str "PermissionError"))) :=
  ⟨single_file_exception_policy.1 envFurFail
     (str "https://drive.google.com/uc?id=AB12") (str "data")
     (str "Failed.\nhttps://drive.google.com/uc?id=AB12 cannot be retrieved")
     (by decide) rfl,
   single_file_exception_policy.2 envOther
     (str "https://drive.google.com/uc?id=AB12") (str "data")
     (.otherExc (str "PermissionError")) (by decide) rfl
     (fun m h => by simp at h)⟩

/-! ## Claim C9 — dispatch-loop deduplication, isolation and skipping -/

theorem handleLink_dispatched (env : PageEnv) (l : Str) :
    dispatchedUrls (handleLink env l) = if recognizedLink l then [l] else [] := by
  by_cases h1 : is_google_drive_url l = true
  · cases he : env.gdriveExc l <;>
      simp [handleLink, recognizedLink, dispatchedUrls, h1, he]
  · rw [Bool.not_eq_true] at h1
    by_cases h2 : is_dropbox_url l = true
    · cases he : env.dropboxExc l <;>
        simp [handleLink, recognizedLink, dispatchedUrls, h1, h2, he]
    · rw [Bool.not_eq_true] at h2
      by_cases h3 : looks_like_direct_file l = true
      · cases he : env.genericExc l <;>
          simp [handleLink, recognizedLink, dispatchedUrls, h1, h2, h3, he]
      · rw [Bool.not_eq_true] at h3
        simp [handleLink, recognizedLink, dispatchedUrls, h1, h2, h3]

theorem handleLink_mem_url {env : PageEnv} {l : Str} {e : PEvent}
    (h : e ∈ handleLink env l) : eventUrl e = l ∧ recognizedLink l = true := by
  unfold handleLink at h
  by_cases h1 : is_google_drive_url l = true
  · rw [if_pos h1] at h
    cases he : env.gdriveExc l <;> rw [he] at h <;>
      simp_all [eventUrl, recognizedLink] <;> rcases h with h | h <;> subst h <;> simp [eventUrl]
  · rw [Bool.not_eq_true] at h1
    rw [h1] at h
    simp only [Bool.false_eq_true, if_false] at h
    by_cases h2 : is_dropbox_url l = true
    · rw [if_pos h2] at h
      cases he : env.dropboxExc l <;> rw [he] at h <;>
        simp_all [eventUrl, recognizedLink] <;> rcases h with h | h <;> subst h <;> simp [eventUrl]
    · rw [Bool.not_eq_true] at h2
      rw [h2] at h
      simp only [Bool.false_eq_true, if_false] at h
      by_cases h3 : looks_like_direct_file l = true
      · rw [if_pos h3] at h
        cases he : env.genericExc l <;> rw [he] at h <;>
          simp_all [eventUrl, recognizedLink] <;> rcases h with h | h <;> subst h <;> simp [eventUrl]
      · rw [Bool.not_eq_true] at h3
        rw [h3] at h
        simp at h

theorem scrapeLoop_dispatched (env : PageEnv) : ∀ (links seen : List Str),
    dispatchedUrls (scrapeLoop env links seen) =
      (dedupSeen links seen).filter recognizedLink := by
  intro links
  induction links with
  | nil => intro seen; rfl
  | cons l rest ih =>
    intro seen
    by_cases hs : l ∈ seen
    · simp [scrapeLoop, dedupSeen, hs, ih]
    · simp only [scrapeLoop, dedupSeen, if_neg hs]
      show dispatchedUrls (handleLink env l ++ scrapeLoop env rest (l :: seen)) = _
      unfold dispatchedUrls
      rw [List.filterMap_append]
      show dispatchedUrls (handleLink env l) ++ dispatchedUrls (scrapeLoop env rest (l :: seen)) = _
      rw [handleLink_dispatched, ih (l :: seen)]
      by_cases hr : recognizedLink l = true
      · simp [hr, List.filter_cons]
      · rw [Bool.not_eq_true] at hr
        simp [hr, List.filter_cons]

theorem scrapeLoop_mem_url {env : PageEnv} : ∀ {links seen : List Str} {e : PEvent},
    e ∈ scrapeLoop env links seen → recognizedLink (eventUrl e) = true := by
  intro links
  induction links with
  | nil => intro seen e h; simp [scrapeLoop] at h
  | cons l rest ih =>
    intro seen e h
    by_cases hs : l ∈ seen
    · rw [scrapeLoop, if_pos hs] at h
      exact ih h
    · rw [scrapeLoop, if_neg hs] at h
      rcases List.mem_append.mp h with h | h
      · rcases handleLink_mem_url h with ⟨he, hr⟩
        rw [he]
        exact hr
      · exact ih h

theorem dedupSeen_nodup : ∀ (links seen : List Str),
    (dedupSeen links seen).Nodup ∧ ∀ l ∈ dedupSeen links seen, l ∉ seen := by
  intro links
  induction links with
  | nil => intro seen; exact ⟨List.nodup_nil, by simp [dedupSeen]⟩
  | cons l rest ih =>
    intro seen
    by_cases hs : l ∈ seen
    · rw [dedupSeen, if_pos hs]
      exact ih seen
    · rw [dedupSeen, if_neg hs]
      rcases ih (l :: seen) with ⟨hnd, hout⟩
      refine ⟨List.nodup_cons.mpr ⟨fun hmem => ?_, hnd⟩, ?_⟩
      · exact hout l hmem (List.mem_cons_self _ _)
      · intro x hx
        rcases List.mem_cons.mp hx with rfl | hx
        · exact hs
        · exact fun hxs => hout x hx (List.mem_cons_of_mem _ hxs)

/-- Claim C9: when `process_url` scrapes a page, each distinct link is
dispatched at most once (deduplicated by exact URL string, first-appearance
order); per-link exceptions are caught so every remaining recognised link is
still dispatched regardless of which handlers raise; and a link that is
neither a bulk-provider URL, a shared-link URL, nor `looks_like_direct_file`
triggers no event at all (no download, no ledger entry). -/
theorem dispatch_loop_behaviour (env : PageEnv) (url : Str)
    (h1 : is_google_drive_url url = false) (h2 : is_dropbox_url url = false) :
    dispatchedUrls (process_url env url) =
      (dedupSeen env.links []).filter recognizedLink ∧
    (dispatchedUrls (process_url env url)).Nodup ∧
    (∀ l ∈ dedupSeen env.links [], recognizedLink l = true →
      l ∈ dispatchedUrls (process_url env url)) ∧
    (∀ l, recognizedLink l = false → ∀ e ∈ process_url env url, eventUrl e ≠ l) := by
  have hp : process_url env url = scrapeLoop env env.links [] := by
    simp [process_url, h1, h2]
  rw [hp]
  have hd := scrapeLoop_dispatched env env.links []
  rcases dedupSeen_nodup env.links [] with ⟨hnd, _⟩
  refine ⟨hd, ?_, ?_, ?_⟩
  · rw [hd]
    exact hnd.filter _
  · intro l hl hr
    rw [hd]
    exact List.mem_filter.mpr ⟨hl, hr⟩
  · intro l hr e he heq
    have := scrapeLoop_mem_url he
    rw [heq] at this
    rw [this] at hr
    cases hr

/-- A scraped page for the witness: a direct file link (with a duplicate),
an unrecognised link, and a Google Drive folder link whose handler raises. -/
def pageEnvW : PageEnv :=
  ⟨[str "https://e.com/a.pdf", str "https://e.com/about",
    str "https://e.com/a.pdf", str "https://drive.google.com/drive/folders/Z"],
   fun _ => some (str "boom"), fun _ => none, fun _ => none⟩

/-- Witness for `dispatch_loop_behaviour` on `pageEnvW`: the duplicate is
dispatched once, the unrecognised link never appears, and the raising
gdrive handler does not stop the iteration. -/
theorem dispatch_loop_behaviour_witness :
    dispatchedUrls (process_url pageEnvW (str "https://example.com/page")) =
      (dedupSeen pageEnvW.links []).filter recognizedLink ∧
    (dispatchedUrls (process_url pageEnvW (str "https://example.com/page"))).Nodup ∧
    (∀ l ∈ dedupSeen pageEnvW.links [], recognizedLink l = true →
      l ∈ dispatchedUrls (process_url pageEnvW (str "https://example.com/page"))) ∧
    (∀ l, recognizedLink l = false →
      ∀ e ∈ process_url pageEnvW (str "https://example.com/page"), eventUrl e ≠ l) :=
  dispatch_loop_behaviour pageEnvW (str "https://example.com/page")
    (by decide) (by decide)

/-! ## Structural lemmas about the URL parser -/

theorem splitOnceChar_eq_none_of_not_mem {c : Char} {s : Str} (h : c ∉ s) :
    splitOnceChar c s = none := by
  induction s with
  | nil => rfl
  | cons x xs ih =>
    simp only [List.mem_cons, not_or] at h
    simp only [splitOnceChar, if_neg (Ne.symm h.1), ih h.2]

theorem not_mem_of_splitOnceChar_eq_none {c : Char} {s : Str}
    (h : splitOnceChar c s = none) : c ∉ s := by
  induction s with
  | nil => simp
  | cons x xs ih =>
    simp only [splitOnceChar] at h
    by_cases hx : x = c
    · rw [if_pos hx] at h
      cases h
    · rw [if_neg hx] at h
      cases hs : splitOnceChar c xs with
      | none =>
        simp only [List.mem_cons, not_or]
        exact ⟨Ne.symm hx, ih hs⟩
      | some p =>
        rw [hs] at h
        cases h

theorem splitOnceChar_eq_some {c : Char} {s a b : Str}
    (h : splitOnceChar c s = some (a, b)) : s = a ++ c :: b ∧ c ∉ a := by
  induction s generalizing a with
  | nil => cases h
  | cons x xs ih =>
    simp only [splitOnceChar] at h
    by_cases hx : x = c
    · rw [if_pos hx] at h
      cases h
      subst hx
      exact ⟨rfl, List.not_mem_nil _⟩
    · rw [if_neg hx] at h
      cases hs : splitOnceChar c xs with
      | none =>
        rw [hs] at h
        cases h
      | some p =>
        rw [hs] at h
        cases p with
        | mk a' b' =>
          cases h
          rcases ih hs with ⟨h1, h2⟩
          subst h1
          refine ⟨rfl, ?_⟩
          simp only [List.mem_cons, not_or]
          exact ⟨Ne.symm hx, h2⟩

theorem splitOnceChar_append {c : Char} {a b : Str} (h : c ∉ a) :
    splitOnceChar c (a ++ c :: b) = some (a, b) := by
  induction a with
  | nil => simp [splitOnceChar]
  | cons x xs ih =>
    simp only [List.mem_cons, not_or] at h
    simp only [List.cons_append, splitOnceChar, if_neg (Ne.symm h.1), List.append_eq, ih h.2]

theorem mem_takeWhile_pred {p : Char → Bool} {l : Str} {a : Char}
    (h : a ∈ l.takeWhile p) : p a = true := by
  induction l with
  | nil => simp [List.takeWhile] at h
  | cons x xs ih =>
    simp only [List.takeWhile] at h
    cases hx : p x with
    | false =>
      rw [hx] at h
      cases h
    | true =>
      rw [hx] at h
      rcases List.mem_cons.mp h with rfl | h
      · exact hx
      · exact ih h

theorem head?_dropWhile_pred {p : Char → Bool} {l : Str} {a : Char}
    (h : (l.dropWhile p).head? = some a) : p a = false := by
  induction l with
  | nil => cases h
  | cons x xs ih =>
    simp only [List.dropWhile] at h
    cases hx : p x with
    | false =>
      rw [hx] at h
      cases h
      exact hx
    | true =>
      rw [hx] at h
      exact ih h

theorem not_sep_mem_splitOnChar {c : Char} {s : Str} :
    ∀ x ∈ splitOnChar c s, c ∉ x := by
  induction s with
  | nil =>
    intro x hx
    rcases List.mem_singleton.mp hx with rfl
    simp
  | cons y ys ih =>
    intro x hx
    simp only [splitOnChar] at hx
    by_cases hy : y = c
    · rw [if_pos hy] at hx
      rcases List.mem_cons.mp hx with rfl | hx
      · simp
      · exact ih x hx
    · rw [if_neg hy] at hx
      cases hs : splitOnChar c ys with
      | nil =>
        rw [hs] at hx
        rcases List.mem_singleton.mp hx with rfl
        simp only [List.mem_singleton]
        exact fun hcy => hy hcy.symm
      | cons s0 rest =>
        rw [hs] at hx
        rcases List.mem_cons.mp hx with rfl | hx
        · intro hc
          rcases List.mem_cons.mp hc with hc | hc
          · exact hy hc.symm
          · exact ih s0 (hs ▸ List.mem_cons_self _ _) hc
        · exact ih x (hs ▸ List.mem_cons_of_mem _ hx)

/-- Unfolding lemma for `splitOnChar` on a cons cell. -/
theorem splitOnChar_cons (c x : Char) (xs : Str) :
    splitOnChar c (x :: xs) =
      if x = c then [] :: splitOnChar c xs
      else
        match splitOnChar c xs with
        | s :: rest => (x :: s) :: rest
        | [] => [[x]] := rfl

/-- Splitting a string that ends in the separator, extended by a
separator-free tail, yields that tail as the final chunk. -/
theorem splitOnChar_endSep_append {c : Char} {t : Str} (hct : c ∉ t) :
    ∀ {s : Str}, s.getLast? = some c →
      ∃ pre, pre ≠ [] ∧ splitOnChar c (s ++ t) = pre ++ [t] := by
  intro s
  induction s with
  | nil => intro h; cases h
  | cons x s' ih =>
    intro h
    cases hs : s' with
    | nil =>
      subst hs
      simp only [List.getLast?_singleton, Option.some.injEq] at h
      subst h
      refine ⟨[[]], by simp, ?_⟩
      show splitOnChar x (x :: t) = [[]] ++ [t]
      rw [splitOnChar_cons, if_pos rfl, splitOnChar_no_sep hct]
      rfl
    | cons y t' =>
      subst hs
      have h' : (y :: t').getLast? = some c := by
        rw [List.getLast?_cons_cons] at h
        exact h
      rcases ih h' with ⟨pre, hpre, hsplit⟩
      by_cases hx : x = c
      · subst hx
        refine ⟨[] :: pre, by simp, ?_⟩
        show splitOnChar x (x :: ((y :: t') ++ t)) = ([] :: pre) ++ [t]
        rw [splitOnChar_cons, if_pos rfl, hsplit]
        rfl
      · cases hp : pre with
        | nil => exact absurd hp hpre
        | cons p0 prest =>
          refine ⟨(x :: p0) :: prest, by simp, ?_⟩
          show splitOnChar c (x :: ((y :: t') ++ t)) = ((x :: p0) :: prest) ++ [t]
          rw [splitOnChar_cons, if_neg hx, hsplit, hp]
          rfl

theorem pyPathSegs_single {s : Str} (h1 : '/' ∉ s) (h2 : s ≠ []) (h3 : s ≠ str ".") :
    pyPathSegs s = [s] := by
  unfold pyPathSegs
  rw [splitOnChar_no_sep h1]
  have hb2 : (s == []) = false := by
    rw [beq_eq_false_iff_ne]
    exact h2
  have hb3 : (s == ['.']) = false := by
    rw [beq_eq_false_iff_ne]
    exact h3
  simp [List.filter, hb2, hb3]

theorem mem_pyPathSegs {s x : Str} (h : x ∈ pyPathSegs s) :
    x ≠ [] ∧ x ≠ str "." ∧ '/' ∉ x := by
  unfold pyPathSegs at h
  rcases List.mem_filter.mp h with ⟨hmem, hcond⟩
  rw [Bool.and_eq_true, Bool.not_eq_true', Bool.not_eq_true', beq_eq_false_iff_ne,
    beq_eq_false_iff_ne] at hcond
  exact ⟨hcond.1, hcond.2, not_sep_mem_splitOnChar x hmem⟩

/-! ## Claim C8 — generic local path derivation -/

theorem netlocSplit_fst_chars (r : Str) :
    ∀ x ∈ (netlocSplit r).1, ¬(x = '/' ∨ x = '?' ∨ x = '#') := by
  unfold netlocSplit
  split
  · intro x hx
    have := mem_takeWhile_pred hx
    simp only [Bool.not_eq_true', Bool.or_eq_false_iff, beq_eq_false_iff_ne] at this
    rintro (rfl | rfl | rfl)
    · exact this.1.1 rfl
    · exact this.1.2 rfl
    · exact this.2 rfl
  · intro x hx
    cases hx

theorem pyUrlparse_netloc_chars (url : Str) :
    ∀ x ∈ (pyUrlparse url).netloc, ¬(x = '/' ∨ x = '?' ∨ x = '#') :=
  netlocSplit_fst_chars (schemeSplit url).2

theorem replaceColon_no_slash {s : Str} (h : '/' ∉ s) : '/' ∉ pyReplaceColon s := by
  unfold pyReplaceColon
  intro hm
  rcases List.mem_map.mp hm with ⟨y, hy, hf⟩
  by_cases hc : y = ':'
  · rw [if_pos hc] at hf
    cases hf
  · rw [if_neg hc] at hf
    subst hf
    exact h hy

theorem replaceColon_ne_nil {s : Str} (h : s ≠ []) : pyReplaceColon s ≠ [] := by
  unfold pyReplaceColon
  simpa using h

theorem replaceColon_ne_dot {s : Str} (h : s ≠ str ".") : pyReplaceColon s ≠ str "." := by
  unfold pyReplaceColon
  intro he
  cases s with
  | nil => cases he
  | cons a as =>
    cases as with
    | nil =>
      simp only [List.map_cons, List.map_nil] at he
      have hdot : str "." = ['.'] := rfl
      rw [hdot] at he
      have ha : (if a = ':' then '_' else a) = '.' := by
        simpa [List.cons.injEq] using he
      by_cases hc : a = ':'
      · rw [if_pos hc] at ha
        cases ha
      · rw [if_neg hc] at ha
        subst ha
        exact h rfl
    | cons b bs =>
      have := congrArg List.length he
      simp [str] at this

theorem mem_of_getLast?_eq_some {α : Type} {l : List α} {a : α}
    (h : l.getLast? = some a) : a ∈ l := by
  rcases List.mem_getLast?_eq_getLast (Option.mem_def.mpr h) with ⟨hne, he⟩
  rw [he]
  exact List.getLast_mem hne

theorem getLast?_dropWhile_of_ne_nil {p : Char → Bool} {l : Str}
    (h : l.dropWhile p ≠ []) : (l.dropWhile p).getLast? = l.getLast? := by
  conv_rhs => rw [← @List.takeWhile_append_dropWhile _ p l]
  rw [List.getLast?_append_of_ne_nil _ h]

/-- Claim C8 (shape of the generic local path): under a URL with a
non-empty, non-`.` netloc, the first segment of the derived relative path is
the netloc with colons replaced by underscores; no segment is empty (so the
path never ends in a bare separator); and when the URL path is empty or ends
in `/`, the final segment is the default leaf `index`. -/
theorem make_local_generic_shape (url : Str) (base : PyPath)
    (h1 : (pyUrlparse url).netloc ≠ [])
    (h2 : (pyUrlparse url).netloc ≠ str ".") :
    (make_local_rel_parts url).head? =
      some (pyReplaceColon (pyUrlparse url).netloc) ∧
    (∀ s ∈ make_local_rel_parts url, s ≠ []) ∧
    (make_local_rel_parts url).getLast? ≠ some [] ∧
    (((pyUrlparse url).path = [] ∨ (pyUrlparse url).path.getLast? = some '/') →
      (make_local_rel_parts url).getLast? = some (str "index")) ∧
    make_local_path_for_generic url base =
      PyPath.mk base.absolute (base.parts ++ make_local_rel_parts url) := by
  have hslash : '/' ∉ (pyUrlparse url).netloc := by
    intro hm
    exact pyUrlparse_netloc_chars url '/' hm (Or.inl rfl)
  have hrn : pyReplaceColon (pyUrlparse url).netloc ≠ [] := replaceColon_ne_nil h1
  have hrd : pyReplaceColon (pyUrlparse url).netloc ≠ str "." := replaceColon_ne_dot h2
  have hrs : '/' ∉ pyReplaceColon (pyUrlparse url).netloc := replaceColon_no_slash hslash
  have hseg : pyPathSegs (pyReplaceColon (pyUrlparse url).netloc) =
      [pyReplaceColon (pyUrlparse url).netloc] := pyPathSegs_single hrs hrn hrd
  have hrel : make_local_rel_parts url =
      pyReplaceColon (pyUrlparse url).netloc ::
        pyPathSegs (genericPath2 (pyUrlparse url).path) := by
    unfold make_local_rel_parts
    rw [hseg, List.singleton_append]
  refine ⟨?_, ?_, ?_, ?_, rfl⟩
  · rw [hrel]
    rfl
  · intro s hs
    rw [hrel] at hs
    rcases List.mem_cons.mp hs with rfl | hs
    · exact hrn
    · exact (mem_pyPathSegs hs).1
  · cases hgl : (make_local_rel_parts url).getLast? with
    | none => simp
    | some a =>
      intro ha
      have haa : a = [] := Option.some.inj ha
      subst haa
      have hmem := mem_of_getLast?_eq_some hgl
      rw [hrel] at hmem
      rcases List.mem_cons.mp hmem with he | hmem
      · exact hrn he.symm
      · exact (mem_pyPathSegs hmem).1 rfl
  · intro hpe
    by_cases hp0 : pyLstripSlash (pyUrlparse url).path = []
    · have hg2 : genericPath2 (pyUrlparse url).path = str "index" := by
        simp only [genericPath2]
        rw [if_pos hp0, if_neg (by decide)]
      rw [hrel, hg2]
      rfl
    · have hpath : (pyUrlparse url).path.getLast? = some '/' := by
        rcases hpe with hpe | hpe
        · exfalso
          apply hp0
          rw [hpe]
          rfl
        · exact hpe
      have hp0l : (pyLstripSlash (pyUrlparse url).path).getLast? = some '/' :=
        (getLast?_dropWhile_of_ne_nil hp0).trans hpath
      have hg2 : genericPath2 (pyUrlparse url).path =
          pyLstripSlash (pyUrlparse url).path ++ str "index" := by
        simp only [genericPath2]
        rw [if_neg hp0, if_pos hp0l]
      rcases splitOnChar_endSep_append (show '/' ∉ str "index" by decide) hp0l with
        ⟨pre, hpre, hsplit⟩
      have hsegs : pyPathSegs (genericPath2 (pyUrlparse url).path) =
          (pre.filter (fun seg => !(seg == []) && !(seg == ['.']))) ++ [str "index"] := by
        rw [hg2]
        unfold pyPathSegs
        rw [hsplit, List.filter_append]
        rfl
      rw [hrel, hsegs]
      show ([pyReplaceColon (pyUrlparse url).netloc] ++
        (List.filter (fun seg => !(seg == []) && !(seg == ['.'])) pre ++ [str "index"])).getLast? =
        some (str "index")
      rw [List.getLast?_append_of_ne_nil _ (by simp)]
      exact List.getLast?_concat _

/-- Witness for `make_local_generic_shape`: a host with a port and a
trailing-slash path (`http://ex.com:8080/docs/a/` under `data`). -/
theorem make_local_generic_shape_witness :
    (make_local_rel_parts (str "http://ex.com:8080/docs/a/")).head? =
      some (pyReplaceColon (pyUrlparse (str "http://ex.com:8080/docs/a/")).netloc) ∧
    (∀ s ∈ make_local_rel_parts (str "http://ex.com:8080/docs/a/"), s ≠ []) ∧
    (make_local_rel_parts (str "http://ex.com:8080/docs/a/")).getLast? ≠ some [] ∧
    (((pyUrlparse (str "http://ex.com:8080/docs/a/")).path = [] ∨
      (pyUrlparse (str "http://ex.com:8080/docs/a/")).path.getLast? = some '/') →
      (make_local_rel_parts (str "http://ex.com:8080/docs/a/")).getLast? =
        some (str "index")) ∧
    make_local_path_for_generic (str "http://ex.com:8080/docs/a/") (PyPath.mk false [str "data"]) =
      PyPath.mk false ([str "data"] ++ make_local_rel_parts (str "http://ex.com:8080/docs/a/")) :=
  make_local_generic_shape (str "http://ex.com:8080/docs/a/") (PyPath.mk false [str "data"])
    (by decide) (by decide)

/-- Counterexample to claim C8 as stated over every generic URL: a URL with
an empty host (recognised as a direct file, hence classified generic) gets
no host segment at all — the first directory segment under the base is the
first path component, not the (empty) host. -/
theorem generic_path_hostless :
    looks_like_direct_file (str "file:///docs/x.pdf") = true ∧
    is_google_drive_url (str "file:///docs/x.pdf") = false ∧
    is_dropbox_url (str "file:///docs/x.pdf") = false ∧
    pyReplaceColon (pyUrlparse (str "file:///docs/x.pdf")).netloc = [] ∧
    (make_local_rel_parts (str "file:///docs/x.pdf")).head? = some (str "docs") ∧
    str "docs" ≠ ([] : Str) := by
  decide

/-! ## Claim C7 — filename resolution for shared-link downloads -/

theorem head?_append_of_ne_nil {l₁ l₂ : Str} (h : l₁ ≠ []) :
    (l₁ ++ l₂).head? = l₁.head? := by
  cases l₁ with
  | nil => exact absurd rfl h
  | cons x xs => rfl

theorem mem_of_head?_eq_some {l : Str} {a : Char} (h : l.head? = some a) : a ∈ l := by
  cases l with
  | nil => cases h
  | cons x xs =>
    rw [List.head?_cons, Option.some.injEq] at h
    rw [← h]
    exact List.mem_cons_self _ _

theorem not_semi_reverse {c : Char} {s : Str} (h : c ∉ s) : c ∉ s.reverse := by
  simpa using h

theorem pySplitParams_eq_nn {p : Str} (h1 : splitOnceChar '/' p.reverse = none)
    (h2 : splitOnceChar ';' p = none) : pySplitParams p = (p, []) := by
  unfold pySplitParams
  simp only [h1, h2]

theorem pySplitParams_eq_ns {p a b : Str} (h1 : splitOnceChar '/' p.reverse = none)
    (h2 : splitOnceChar ';' p = some (a, b)) : pySplitParams p = (a, b) := by
  unfold pySplitParams
  simp only [h1, h2]

theorem pySplitParams_eq_sn {p revSeg revPre : Str}
    (h1 : splitOnceChar '/' p.reverse = some (revSeg, revPre))
    (h2 : splitOnceChar ';' revSeg.reverse = none) : pySplitParams p = (p, []) := by
  unfold pySplitParams
  simp only [h1, h2]

theorem pySplitParams_eq_ss {p revSeg revPre a b : Str}
    (h1 : splitOnceChar '/' p.reverse = some (revSeg, revPre))
    (h2 : splitOnceChar ';' revSeg.reverse = some (a, b)) :
    pySplitParams p = (revPre.reverse ++ '/' :: a, b) := by
  unfold pySplitParams
  simp only [h1, h2]

/-- Decomposition of the input when `_splitnetloc`'s reverse split fires. -/
theorem rev_split_decomp {p revSeg revPre : Str}
    (h1 : splitOnceChar '/' p.reverse = some (revSeg, revPre)) :
    p = revPre.reverse ++ '/' :: revSeg.reverse ∧ '/' ∉ revSeg := by
  rcases splitOnceChar_eq_some h1 with ⟨hdec, hns⟩
  refine ⟨?_, hns⟩
  have := congrArg List.reverse hdec
  simpa [List.reverse_append] using this

/-- The retained part of `_splitparams` only uses characters of the input. -/
theorem pySplitParams_fst_subset {p : Str} : ∀ x ∈ (pySplitParams p).1, x ∈ p := by
  cases h1 : splitOnceChar '/' p.reverse with
  | none =>
    cases h2 : splitOnceChar ';' p with
    | none =>
      rw [pySplitParams_eq_nn h1 h2]
      intro x hx
      exact hx
    | some pr =>
      cases pr with
      | mk a b =>
        rw [pySplitParams_eq_ns h1 h2]
        rcases splitOnceChar_eq_some h2 with ⟨hdec, _⟩
        intro x hx
        rw [hdec]
        exact List.mem_append_left _ hx
  | some pr =>
    cases pr with
    | mk revSeg revPre =>
      rcases rev_split_decomp h1 with ⟨hp, hns⟩
      cases h2 : splitOnceChar ';' revSeg.reverse with
      | none =>
        rw [pySplitParams_eq_sn h1 h2]
        intro x hx
        exact hx
      | some qr =>
        cases qr with
        | mk a b =>
          rw [pySplitParams_eq_ss h1 h2]
          rcases splitOnceChar_eq_some h2 with ⟨hdec2, _⟩
          intro x hx
          rw [hp, hdec2]
          rcases List.mem_append.mp hx with hx | hx
          · exact List.mem_append_left _ hx
          · rcases List.mem_cons.mp hx with rfl | hx
            · exact List.mem_append_right _ (List.mem_cons_self _ _)
            · refine List.mem_append_right _ (List.mem_cons_of_mem _ ?_)
              exact List.mem_append_left _ hx

/-- The retained part of `_splitparams` keeps the head of the input. -/
theorem pySplitParams_fst_head (p : Str) :
    (pySplitParams p).1 = [] ∨ (pySplitParams p).1.head? = p.head? := by
  cases h1 : splitOnceChar '/' p.reverse with
  | none =>
    cases h2 : splitOnceChar ';' p with
    | none =>
      rw [pySplitParams_eq_nn h1 h2]
      exact Or.inr rfl
    | some pr =>
      cases pr with
      | mk a b =>
        rw [pySplitParams_eq_ns h1 h2]
        rcases splitOnceChar_eq_some h2 with ⟨hdec, _⟩
        cases ha : a with
        | nil => exact Or.inl rfl
        | cons y ys =>
          refine Or.inr ?_
          rw [hdec, ha]
          rfl
  | some pr =>
    cases pr with
    | mk revSeg revPre =>
      rcases rev_split_decomp h1 with ⟨hp, hns⟩
      cases h2 : splitOnceChar ';' revSeg.reverse with
      | none =>
        rw [pySplitParams_eq_sn h1 h2]
        exact Or.inr rfl
      | some qr =>
        cases qr with
        | mk a b =>
          rw [pySplitParams_eq_ss h1 h2]
          refine Or.inr ?_
          rw [hp]
          cases hrp : revPre.reverse with
          | nil => rfl
          | cons y ys => rfl

/-- The last `/`-separated segment contains no `;` (the shape `_splitparams`
leaves behind). -/
def noSemiLastSeg (p : Str) : Prop :=
  match splitOnceChar '/' p.reverse with
  | none => ';' ∉ p
  | some (revSeg, _) => ';' ∉ revSeg

theorem noSemiLastSeg_of_none {p : Str} (h1 : splitOnceChar '/' p.reverse = none)
    (h : ';' ∉ p) : noSemiLastSeg p := by
  unfold noSemiLastSeg
  simp only [h1]
  exact h

theorem noSemiLastSeg_of_some {p revSeg revPre : Str}
    (h1 : splitOnceChar '/' p.reverse = some (revSeg, revPre))
    (h : ';' ∉ revSeg) : noSemiLastSeg p := by
  unfold noSemiLastSeg
  simp only [h1]
  exact h

theorem pySplitParams_of_noSemi {p : Str} (h : noSemiLastSeg p) :
    pySplitParams p = (p, []) := by
  unfold noSemiLastSeg at h
  cases h1 : splitOnceChar '/' p.reverse with
  | none =>
    rw [h1] at h
    exact pySplitParams_eq_nn h1 (splitOnceChar_eq_none_of_not_mem h)
  | some pr =>
    cases pr with
    | mk revSeg revPre =>
      rw [h1] at h
      exact pySplitParams_eq_sn h1
        (splitOnceChar_eq_none_of_not_mem (not_semi_reverse h))

theorem noSemiLastSeg_pySplitParams (p : Str) : noSemiLastSeg (pySplitParams p).1 := by
  cases h1 : splitOnceChar '/' p.reverse with
  | none =>
    have hsl : '/' ∉ p := by
      have := not_mem_of_splitOnceChar_eq_none h1
      simpa using this
    cases h2 : splitOnceChar ';' p with
    | none =>
      rw [pySplitParams_eq_nn h1 h2]
      exact noSemiLastSeg_of_none
        (splitOnceChar_eq_none_of_not_mem (not_semi_reverse hsl))
        (not_mem_of_splitOnceChar_eq_none h2)
    | some pr =>
      cases pr with
      | mk a b =>
        rw [pySplitParams_eq_ns h1 h2]
        rcases splitOnceChar_eq_some h2 with ⟨hdec, hnsa⟩
        have hsa : '/' ∉ a := by
          intro hx
          exact hsl (hdec ▸ List.mem_append_left _ hx)
        exact noSemiLastSeg_of_none
          (splitOnceChar_eq_none_of_not_mem (not_semi_reverse hsa)) hnsa
  | some pr =>
    cases pr with
    | mk revSeg revPre =>
      rcases rev_split_decomp h1 with ⟨hp, hns⟩
      cases h2 : splitOnceChar ';' revSeg.reverse with
      | none =>
        rw [pySplitParams_eq_sn h1 h2]
        refine noSemiLastSeg_of_some h1 ?_
        have := not_mem_of_splitOnceChar_eq_none h2
        simpa using this
      | some qr =>
        cases qr with
        | mk a b =>
          rw [pySplitParams_eq_ss h1 h2]
          rcases splitOnceChar_eq_some h2 with ⟨hdec2, hnsa⟩
          have hsa : '/' ∉ a.reverse := by
            intro hx
            apply hns
            have hmem : '/' ∈ revSeg.reverse :=
              hdec2 ▸ List.mem_append_left _ (by simpa using hx)
            simpa using hmem
          have hq : (revPre.reverse ++ '/' :: a).reverse = a.reverse ++ '/' :: revPre := by
            simp [List.reverse_append]
          refine @noSemiLastSeg_of_some (revPre.reverse ++ '/' :: a) a.reverse revPre ?_ ?_
          · rw [hq]
            exact splitOnceChar_append hsa
          · intro hx
            exact hnsa (by simpa using hx)

theorem pySplitParams_idem (p : Str) :
    pySplitParams (pySplitParams p).1 = ((pySplitParams p).1, []) :=
  pySplitParams_of_noSemi (noSemiLastSeg_pySplitParams p)

theorem schemeSplit_eq_none {p : Str} (h : splitOnceChar ':' p = none) :
    schemeSplit p = ([], p) := by
  unfold schemeSplit
  simp only [h]

theorem schemeSplit_eq_some {p pre r : Str} (h : splitOnceChar ':' p = some (pre, r)) :
    schemeSplit p = if validScheme pre then (pyLower pre, r) else ([], p) := by
  unfold schemeSplit
  simp only [h]

theorem fragmentSplit_eq_none {r : Str} (h : splitOnceChar '#' r = none) :
    fragmentSplit r = (r, []) := by
  unfold fragmentSplit
  simp only [h]

theorem fragmentSplit_eq_some {r a b : Str} (h : splitOnceChar '#' r = some (a, b)) :
    fragmentSplit r = (a, b) := by
  unfold fragmentSplit
  simp only [h]

theorem querySplit_eq_none {r : Str} (h : splitOnceChar '?' r = none) :
    querySplit r = (r, []) := by
  unfold querySplit
  simp only [h]

theorem querySplit_eq_some {r a b : Str} (h : splitOnceChar '?' r = some (a, b)) :
    querySplit r = (a, b) := by
  unfold querySplit
  simp only [h]

/-- A string that is empty or starts with `/` has no scheme. -/
theorem schemeSplit_plain {p : Str} (h0 : p = [] ∨ p.head? = some '/') :
    schemeSplit p = ([], p) := by
  cases h : splitOnceChar ':' p with
  | none => exact schemeSplit_eq_none h
  | some pr =>
    cases pr with
    | mk pre r =>
      rcases splitOnceChar_eq_some h with ⟨hdec, _⟩
      have hv : validScheme pre = false := by
        rcases h0 with h0 | h0
        · rw [h0] at hdec
          cases pre <;> cases hdec
        · cases pre with
          | nil =>
            rw [hdec] at h0
            simp at h0
          | cons c cs =>
            rw [hdec] at h0
            have hc : c = '/' := by simpa using h0
            subst hc
            rfl
      rw [schemeSplit_eq_some h, hv]
      rfl

/-- A string not starting with `//` yields no netloc. -/
theorem netlocSplit_not_dslash {r : Str} (h : ¬ (str "//" <+: r)) :
    netlocSplit r = ([], r) := by
  unfold netlocSplit
  split
  · rename_i rest
    exact absurd ⟨rest, rfl⟩ h
  · rfl

theorem netlocSplit_snd_head {r : Str} {x : Char} (h1 : (netlocSplit r).1 ≠ [])
    (h2 : (netlocSplit r).2.head? = some x) : x = '/' ∨ x = '?' ∨ x = '#' := by
  revert h1 h2
  unfold netlocSplit
  split
  · intro _ hx
    have := head?_dropWhile_pred hx
    simp only [Bool.not_eq_false', Bool.or_eq_true, beq_iff_eq] at this
    tauto
  · intro h1 _
    exact absurd rfl h1

theorem fragmentSplit_facts (r : Str) :
    '#' ∉ (fragmentSplit r).1 ∧ (∀ x ∈ (fragmentSplit r).1, x ∈ r) ∧
    ((fragmentSplit r).1 = [] ∨ (fragmentSplit r).1.head? = r.head?) := by
  cases h : splitOnceChar '#' r with
  | none =>
    rw [fragmentSplit_eq_none h]
    exact ⟨not_mem_of_splitOnceChar_eq_none h, fun x hx => hx, Or.inr rfl⟩
  | some pr =>
    cases pr with
    | mk a b =>
      rw [fragmentSplit_eq_some h]
      rcases splitOnceChar_eq_some h with ⟨hdec, hna⟩
      refine ⟨hna, ?_, ?_⟩
      · intro x hx
        rw [hdec]
        exact List.mem_append_left _ hx
      · cases ha : a with
        | nil => exact Or.inl rfl
        | cons y ys =>
          refine Or.inr ?_
          rw [hdec, ha]
          rfl

theorem querySplit_facts (r : Str) :
    '?' ∉ (querySplit r).1 ∧ (∀ x ∈ (querySplit r).1, x ∈ r) ∧
    ((querySplit r).1 = [] ∨ (querySplit r).1.head? = r.head?) := by
  cases h : splitOnceChar '?' r with
  | none =>
    rw [querySplit_eq_none h]
    exact ⟨not_mem_of_splitOnceChar_eq_none h, fun x hx => hx, Or.inr rfl⟩
  | some pr =>
    cases pr with
    | mk a b =>
      rw [querySplit_eq_some h]
      rcases splitOnceChar_eq_some h with ⟨hdec, hna⟩
      refine ⟨hna, ?_, ?_⟩
      · intro x hx
        rw [hdec]
        exact List.mem_append_left _ hx
      · cases ha : a with
        | nil => exact Or.inl rfl
        | cons y ys =>
          refine Or.inr ?_
          rw [hdec, ha]
          rfl

/-- On a plain absolute path (no `//` lead, no query, no fragment, already
params-stripped), `urlparse` returns the path unchanged.  This is the shape
`safe_filename_from_url` re-parses. -/
theorem pyUrlparse_plain_path {p : Str}
    (h0 : p = [] ∨ p.head? = some '/') (hdd : ¬ (str "//" <+: p))
    (hq : '?' ∉ p) (hh : '#' ∉ p) (hsp : pySplitParams p = (p, [])) :
    (pyUrlparse p).path = p := by
  show (pySplitParams (querySplit (fragmentSplit (netlocSplit (schemeSplit p).2).2).1).1).1 = p
  rw [schemeSplit_plain h0]
  show (pySplitParams (querySplit (fragmentSplit (netlocSplit p).2).1).1).1 = p
  rw [netlocSplit_not_dslash hdd]
  show (pySplitParams (querySplit (fragmentSplit p).1).1).1 = p
  rw [fragmentSplit_eq_none (splitOnceChar_eq_none_of_not_mem hh)]
  show (pySplitParams (querySplit p).1).1 = p
  rw [querySplit_eq_none (splitOnceChar_eq_none_of_not_mem hq)]
  show (pySplitParams p).1 = p
  rw [hsp]

/-- Facts about the path component a top-level `urlparse` produces: it
contains no `?` or `#`, it is already params-stripped, and under a non-empty
netloc it is empty or starts with `/`. -/
theorem pyUrlparse_path_facts (url : Str) :
    '?' ∉ (pyUrlparse url).path ∧ '#' ∉ (pyUrlparse url).path ∧
    pySplitParams (pyUrlparse url).path = ((pyUrlparse url).path, []) ∧
    ((pyUrlparse url).netloc ≠ [] →
      ((pyUrlparse url).path = [] ∨ (pyUrlparse url).path.head? = some '/')) := by
  have hpath : (pyUrlparse url).path =
      (pySplitParams (querySplit (fragmentSplit
        (netlocSplit (schemeSplit url).2).2).1).1).1 := rfl
  rcases fragmentSplit_facts (netlocSplit (schemeSplit url).2).2 with ⟨hf1, hf2, hf3⟩
  rcases querySplit_facts (fragmentSplit (netlocSplit (schemeSplit url).2).2).1 with
    ⟨hq1, hq2, hq3⟩
  refine ⟨?_, ?_, ?_, ?_⟩
  · rw [hpath]
    intro hx
    exact hq1 (pySplitParams_fst_subset _ hx)
  · rw [hpath]
    intro hx
    exact hf1 (hq2 _ (pySplitParams_fst_subset _ hx))
  · rw [hpath]
    exact pySplitParams_idem _
  · intro hnet
    by_cases hp : (pyUrlparse url).path = []
    · exact Or.inl hp
    · refine Or.inr ?_
      cases hx : (pyUrlparse url).path.head? with
      | none =>
        rw [List.head?_eq_none_iff] at hx
        exact absurd hx hp
      | some x =>
        have hxpr : (querySplit (fragmentSplit
            (netlocSplit (schemeSplit url).2).2).1).1.head? = some x := by
          rcases pySplitParams_fst_head (querySplit (fragmentSplit
            (netlocSplit (schemeSplit url).2).2).1).1 with h | h
          · rw [hpath] at hp
            exact absurd h hp
          · rw [← h, ← hpath]
            exact hx
        have hxr3 : (fragmentSplit
            (netlocSplit (schemeSplit url).2).2).1.head? = some x := by
          rcases hq3 with h | h
          · rw [h] at hxpr
            cases hxpr
          · rw [← h]
            exact hxpr
        have hxr2 : (netlocSplit (schemeSplit url).2).2.head? = some x := by
          rcases hf3 with h | h
          · rw [h] at hxr3
            cases hxr3
          · rw [← h]
            exact hxr3
        have hxd : x = '/' ∨ x = '?' ∨ x = '#' := netlocSplit_snd_head hnet hxr2
        have hxmem : x ∈ (pyUrlparse url).path := mem_of_head?_eq_some hx
        rcases hxd with rfl | rfl | rfl
        · rfl
        · exfalso
          rw [hpath] at hxmem
          exact hq1 (pySplitParams_fst_subset _ hxmem)
        · exfalso
          rw [hpath] at hxmem
          exact hf1 (hq2 _ (pySplitParams_fst_subset _ hxmem))

/-- On the shape produced by a top-level parse (and not starting with `//`),
`safe_filename_from_url` is exactly basename-of-rstripped-path with the
fallback for the empty result. -/
theorem safe_filename_plain {p fb : Str}
    (h0 : p = [] ∨ p.head? = some '/') (hdd : ¬ (str "//" <+: p))
    (hq : '?' ∉ p) (hh : '#' ∉ p) (hsp : pySplitParams p = (p, [])) :
    safe_filename_from_url p fb =
      if pyBasename (pyRstripSlash p) = [] then fb
      else pyBasename (pyRstripSlash p) := by
  simp only [safe_filename_from_url]
  rw [pyUrlparse_plain_path h0 hdd hq hh hsp]

theorem takeWhile_all {p : Char → Bool} : ∀ {t : Str}, (∀ c ∈ t, p c = true) →
    t.takeWhile p = t := by
  intro t
  induction t with
  | nil => intro _; rfl
  | cons x xs ih =>
    intro h
    rw [List.takeWhile_cons, h x (List.mem_cons_self _ _)]
    rw [ih (fun c hc => h c (List.mem_cons_of_mem _ hc))]
    rfl

theorem takeWhile_append_stop {p : Char → Bool} {t rest : Str} {x : Char}
    (h : ∀ c ∈ t, p c = true) (hx : p x = false) :
    (t ++ x :: rest).takeWhile p = t := by
  induction t with
  | nil =>
    show (x :: rest).takeWhile p = []
    rw [List.takeWhile_cons, hx]
    rfl
  | cons y ys ih =>
    show (y :: (ys ++ x :: rest)).takeWhile p = y :: ys
    rw [List.takeWhile_cons, h y (List.mem_cons_self _ _)]
    rw [ih (fun c hc => h c (List.mem_cons_of_mem _ hc))]
    rfl

theorem isPrefixOf_append (p r : Str) : p.isPrefixOf (p ++ r) = true := by
  induction p with
  | nil => simp [List.isPrefixOf]
  | cons x xs ih => simp [List.isPrefixOf, ih]

theorem afterPre_append (p r : Str) : afterPre p (p ++ r) = some r := by
  unfold afterPre
  rw [if_pos (isPrefixOf_append p r)]
  rw [List.drop_left]

theorem matchFilenameAt_append (s : Str) :
    matchFilenameAt (str "filename" ++ s) = matchAfterName s := by
  unfold matchFilenameAt
  simp only [afterPre_append]

theorem searchFilenameToken_head {s t : Str} (hs : s ≠ [])
    (h : matchFilenameAt s = some t) : searchFilenameToken s = some t := by
  cases s with
  | nil => exact absurd rfl hs
  | cons c cs => simp only [searchFilenameToken, h]

/-- The plain form `filename="...token..."` is accepted with the token as
capture group. -/
theorem searchFilenameToken_plain {t : Str} (hne : t ≠ [])
    (hcl : ∀ c ∈ t, (!(c == '"' || c == ';')) = true) :
    searchFilenameToken (str "filename=" ++ ('"' :: (t ++ ['"']))) = some t := by
  have he : str "filename=" ++ ('"' :: (t ++ ['"'])) =
      str "filename" ++ ('=' :: '"' :: (t ++ ['"'])) := rfl
  rw [he]
  refine searchFilenameToken_head (by simp [str]) ?_
  rw [matchFilenameAt_append]
  show matchValue ('"' :: (t ++ ['"'])) = some t
  show (let tk := (t ++ ['"']).takeWhile (fun c => !(c == '"' || c == ';'));
    if tk = [] then none else some tk) = some t
  have ht : (t ++ ['"']).takeWhile (fun c => !(c == '"' || c == ';')) = t :=
    takeWhile_append_stop hcl (by decide)
  simp only [ht]
  rw [if_neg hne]

/-- The extended form `filename*=token` is accepted with the token as
capture group. -/
theorem searchFilenameToken_extended {t : Str} (hne : t ≠ [])
    (hcl : ∀ c ∈ t, (!(c == '"' || c == ';')) = true) :
    searchFilenameToken (str "filename*=" ++ t) = some t := by
  have he : str "filename*=" ++ t = str "filename" ++ ('*' :: '=' :: t) := rfl
  rw [he]
  refine searchFilenameToken_head (by simp [str]) ?_
  rw [matchFilenameAt_append]
  show matchValue t = some t
  cases ht : t with
  | nil => exact absurd ht hne
  | cons c cs =>
    have hc : ¬(c = '"') := by
      have := hcl c (ht ▸ List.mem_cons_self _ _)
      simp only [Bool.not_eq_true', Bool.or_eq_false_iff, beq_eq_false_iff_ne] at this
      exact this.1
    unfold matchValue
    split
    · rename_i r3 heq
      rw [List.cons.injEq] at heq
      exact absurd heq.1 hc
    · have hall : (c :: cs).takeWhile (fun x => !(x == '"' || x == ';')) = c :: cs :=
        takeWhile_all (fun x hx => hcl x (ht ▸ hx))
      simp only [hall]
      rw [if_neg (by simp)]

/-- Counterexample to claim C7 as stated: for a shared-link URL whose path
begins with `//` and no Content-Disposition token, the fallback re-parses
the path as a URL, swallows the leading `//segment` as a network location,
and yields the fixed default name instead of the URL's last path segment. -/
theorem dropbox_filename_dslash_path :
    searchFilenameToken (str "") = none ∧
    pyBasename (pyRstripSlash
      (pyUrlparse (str "https://www.dropbox.com//report.pdf?dl=0")).path) =
      str "report.pdf" ∧
    dropbox_filename (str "") (str "https://www.dropbox.com//report.pdf?dl=0") =
      str "dropbox_download" ∧
    str "dropbox_download" ≠ str "report.pdf" := by
  exact ⟨rfl, by decide, by decide, by decide⟩

/-- Claim C7 (amended): the output filename of `download_dropbox_file` is
resolved in order: (1) a token parsed from Content-Disposition, accepting
both the plain `filename="..."` and the extended `filename*=...` form;
(2) when no token parses — and provided the URL has a host and its path does
not begin with `//` — the last path segment of the original URL; (3) the
fixed default name when the path yields no segment.  (A path beginning with
`//` is re-parsed with its leading `//segment` as a host, which can yield
the default name instead of the last segment.) -/
theorem dropbox_filename_resolution (cd url : Str) :
    (∀ t, searchFilenameToken cd = some t → dropbox_filename cd url = t) ∧
    (searchFilenameToken cd = none → (pyUrlparse url).netloc ≠ [] →
      ¬ (str "//" <+: (pyUrlparse url).path) →
      ((pyBasename (pyRstripSlash (pyUrlparse url).path) ≠ [] →
        dropbox_filename cd url = pyBasename (pyRstripSlash (pyUrlparse url).path)) ∧
       (pyBasename (pyRstripSlash (pyUrlparse url).path) = [] →
        dropbox_filename cd url = str "dropbox_download"))) ∧
    (∀ t, t ≠ [] → (∀ c ∈ t, ¬(c = '"' ∨ c = ';')) →
      searchFilenameToken (str "filename=" ++ ('"' :: (t ++ ['"']))) = some t ∧
      searchFilenameToken (str "filename*=" ++ t) = some t) := by
  refine ⟨?_, ?_, ?_⟩
  · intro t h
    unfold dropbox_filename
    rw [h]
  · intro hnone hnet hdd
    have hfb : dropbox_filename cd url =
        safe_filename_from_url (pyUrlparse url).path (str "dropbox_download") := by
      unfold dropbox_filename
      rw [hnone]
    rcases pyUrlparse_path_facts url with ⟨hq, hh, hsp, hhead⟩
    have hsafe := @safe_filename_plain (pyUrlparse url).path (str "dropbox_download")
      (hhead hnet) hdd hq hh hsp
    constructor
    · intro hbn
      rw [hfb, hsafe, if_neg hbn]
    · intro hbn
      rw [hfb, hsafe, if_pos hbn]
  · intro t hne hcl
    have hcl' : ∀ c ∈ t, (!(c == '"' || c == ';')) = true := by
      intro c hc
      have := hcl c hc
      simp only [not_or] at this
      simp only [Bool.not_eq_true', Bool.or_eq_false_iff, beq_eq_false_iff_ne]
      exact this
    exact ⟨searchFilenameToken_plain hne hcl', searchFilenameToken_extended hne hcl'⟩

/-- Witness for `dropbox_filename_resolution` at the spec's scenario-B URL:
no header token, so the name resolves to the last path segment
`report.pdf`; and both Content-Disposition forms parse `report.pdf`. -/
theorem dropbox_filename_resolution_witness :
    dropbox_filename (str "attachment")
      (str "https://www.dropbox.com/s/xyz/report.pdf?dl=0") = str "report.pdf" ∧
    searchFilenameToken (str "filename=" ++ ('"' :: (str "report.pdf" ++ ['"']))) =
      some (str "report.pdf") ∧
    searchFilenameToken (str "filename*=" ++ str "report.pdf") =
      some (str "report.pdf") :=
  ⟨by
    have h := ((dropbox_filename_resolution (str "attachment")
      (str "https://www.dropbox.com/s/xyz/report.pdf?dl=0")).2.1
      (by decide) (by decide) (by decide)).1 (by decide)
    rw [h]
    decide,
   ((dropbox_filename_resolution (str "attachment")
      (str "https://www.dropbox.com/s/xyz/report.pdf?dl=0")).2.2
      (str "report.pdf") (by decide) (by decide)).1,
   ((dropbox_filename_resolution (str "attachment")
      (str "https://www.dropbox.com/s/xyz/report.pdf?dl=0")).2.2
      (str "report.pdf") (by decide) (by decide)).2⟩
